import Mathlib

/-!
# goodfoo/debounce: the debouncer of `debounce.go` as a transition system

The Go code is a struct (`debouncer`) shared between the caller's goroutine
(`Invoke`, `Cancel`, `Flush`) and the goroutine `Invoke` launches.  The embedding
keeps the struct field by field and turns every piece of the code between two
points where another goroutine can observe it into a step of an interleaving
semantics:

* `Invoke`, `Cancel`, `Flush`, `New`, `Throttle` are the functions of the source;
  a call of a method is one step (callers are serialised, memory is
  sequentially consistent);
* the goroutine launched by `Invoke` goes through three phases.  `taskStart`
  runs it from its first statement to the `select` (a goroutine that is slow to
  take a ready branch stands for one whose leading call of `f` is long).
  `taskTick` is the `case <-d.waitTicker.C` branch up to the call of `d.f()`:
  the goroutine is then past its `select` with the guard still held, until
  `taskExit`, the return of `f` and the deferred `atomic.StoreUint32(&d.i, 0)`.
  `taskDone` is the `case <-d.ctx.Done()` branch: its body is empty and the
  receive changes nothing, so it is one step with the deferred store.
  When both channels are ready either branch can be taken, as in Go;
* the goroutines that are alive are counted (`spawned`, `waiting`,
  `finishing`), so that "at most one" is a theorem and not a property of the
  state space;
* time is a natural number of nanoseconds (the unit of `time.Duration`); `sleep`
  lets it pass, and the runtime runs a timer that is due in a step of its own
  (`fire`), at or after the instant for which it is armed.

The pieces of the Go standard library the code calls (`time.Ticker`,
`context.WithCancel`, `context.WithTimeout`) are modelled by their contract: a
ticker is a runtime timer (`next`, `period`) feeding a channel that holds at
most one tick (`buffered`), and it ticks from `NewTicker` on whether or not
anybody receives; a context is done once cancelled or once its deadline has
passed.  Two points of that contract differ between Go releases, and the
repository does not fix the release, so they are parameters (`Runtime`):
whether `Ticker.Reset` panics on a duration that is not positive, and whether
`Reset` and `Stop` discard a tick that nobody has received.  The caller's
function `f` is opaque: the model records the instants at which it is
executed (`World.log`).
-/

namespace Debounce

/-! ## Data model -/

/-- The `Options` struct. Durations (`time.Duration`) are signed nanosecond counts. -/
structure Options where
  /-- Trigger on Leading edge. -/
  Leading : Bool
  /-- Support for periodic trigger / Throttling. -/
  MaxWait : Int
  /-- Trigger on Trailing edge. -/
  Trailing : Bool
deriving DecidableEq, Repr

/-- What the field `f` holds: the function given to `New`, or the `func() {}`
that `Cancel` loads. -/
inductive Func where
  | user
  | noop
deriving DecidableEq, Repr

/-- The behaviour of package `time` that depends on the Go release.
`resetPanics`: `Ticker.Reset(d)` panics for `d ≤ 0` (Go 1.18 and later; before,
the timer is armed to fire at once, one time).
`resetDrains`: `Reset` and `Stop` discard a tick that is waiting in the channel
(Go 1.23 and later; before, the tick stays and the next receive gets it). -/
structure Runtime where
  resetPanics : Bool
  resetDrains : Bool
deriving DecidableEq, Repr

/-- Package `time` of Go 1.15 to 1.17. -/
def go117 : Runtime :=
  { resetPanics := false, resetDrains := false }

/-- Package `time` of Go 1.18 to 1.22. -/
def go118 : Runtime :=
  { resetPanics := true, resetDrains := false }

/-- Package `time` of Go 1.23 and later. -/
def go123 : Runtime :=
  { resetPanics := true, resetDrains := true }

/-- A `*time.Ticker`: the runtime timer behind it and its channel `C`.
`next` is the instant for which the timer is armed (`none`: not armed),
`period` the distance between ticks (a timer armed with period `0` fires once),
`buffered` says that a tick is waiting in the channel. -/
structure Ticker where
  period : Int
  next : Option Nat
  buffered : Bool
deriving DecidableEq, Repr

/-- A `context.Context` as the code uses it: an optional deadline and the
effect of calling its `CancelFunc`. -/
structure Context where
  deadline : Option Nat
  cancelled : Bool
deriving DecidableEq, Repr

/-- The `debouncer` struct. `ctx` stands for the pair `ctx`, `cancelFunc`. -/
structure debouncer where
  f : Func
  wait : Int
  opts : Options
  waitTicker : Ticker
  i : Nat
  ctx : Context
  intermediateCount : Int
deriving DecidableEq, Repr

/-- A debouncer together with what surrounds it: the runtime, the clock, the
instants at which the caller's function has been executed (latest first), the
goroutines launched by `Invoke` that have not finished (`spawned` have not run
yet, `waiting` are blocked in the `select`, `finishing` have left the `select`
through the ticker branch and have not yet released the guard), and whether a
call of a method has panicked. -/
structure World where
  d : debouncer
  rt : Runtime
  now : Nat
  log : List Nat
  spawned : Nat
  waiting : Nat
  finishing : Nat
  crashed : Bool
deriving DecidableEq, Repr

/-- The steps of the interleaving semantics. -/
inductive Ev where
  | invoke
  | flush
  | cancel
  | sleep (dt : Nat)
  | fire
  | taskStart
  | taskTick
  | taskDone
  | taskExit
deriving DecidableEq, Repr

/-! ## Standard library: `time.Ticker` and `context` -/

/-- Whether the timer of the ticker is armed for an instant that has come. -/
def Ticker.due (t : Ticker) (now : Nat) : Bool :=
  match t.next with
  | none => false
  | some w => decide (w ≤ now)

/-- The runtime runs the timer at `now`: when it is due, a tick is sent to the
channel without blocking (it is dropped when one is waiting already) and a
periodic timer is moved to its first instant after `now`, as `runOneTimer`
does (`when += period * (1 + (now - when) / period)`); a timer of period `0`
is removed after firing. -/
def Ticker.fire (t : Ticker) (now : Nat) : Ticker :=
  match t.next with
  | none => t
  | some w =>
    if w ≤ now then
      { t with
        buffered := true
        next :=
          if t.period ≤ 0 then none
          else some (w + t.period.toNat * (1 + (now - w) / t.period.toNat)) }
    else t

/-- The call `time.NewTicker(d)`: panics (`none`) when `d` is not positive,
otherwise a ticker whose first tick comes `d` from now. -/
def NewTicker (now : Nat) (d : Int) : Option Ticker :=
  if d ≤ 0 then none
  else some { period := d, next := some (now + d.toNat), buffered := false }

/-- The call `t.Reset(d)`.  It panics (`none`) for `d ≤ 0` on a runtime that
checks its argument.  Otherwise the timer is re-armed for `d` from now with
period `d` (for `d ≤ 0`: for now, to fire one time); the call itself sends
nothing, the runtime runs the timer later.  A tick that is waiting in the
channel stays there, unless the runtime discards it. -/
def Ticker.Reset (rt : Runtime) (t : Ticker) (now : Nat) (d : Int) : Option Ticker :=
  if rt.resetPanics && decide (d ≤ 0) then none
  else
    some
      { period := d
        next := some (now + d.toNat)
        buffered := if rt.resetDrains then false else t.buffered }

/-- The call `t.Stop()`: the timer is disarmed; a tick that is waiting in the
channel stays there, unless the runtime discards it. -/
def Ticker.Stop (rt : Runtime) (t : Ticker) : Ticker :=
  { t with next := none, buffered := if rt.resetDrains then false else t.buffered }

/-- Whether `<-ctx.Done()` can proceed at `now`. -/
def Context.done (c : Context) (now : Nat) : Bool :=
  c.cancelled || (match c.deadline with
    | none => false
    | some dl => decide (dl ≤ now))

/-- Two's complement wrap-around of an `int64`: what `d.intermediateCount++`
computes from the mathematical sum. -/
def wrapInt64 (x : Int) : Int :=
  (x + 2 ^ 63) % 2 ^ 64 - 2 ^ 63

/-! ## The functions of `debounce.go` -/

/-- The constructor `New(f, wait, options)` called at instant `now` on runtime `rt`.
The context is `WithCancel(Background())`, replaced by
`WithTimeout(ctx, options.MaxWait)` when `options.MaxWait > 0`: its deadline is
`now + MaxWait`, `now` being the instant of the call of `New`.
`time.NewTicker(wait)` panics for `wait ≤ 0`. -/
def New (rt : Runtime) (now : Nat) (wait : Int) (options : Options) : Option World :=
  let ctx : Context :=
    if options.MaxWait > 0 then
      { deadline := some (now + options.MaxWait.toNat), cancelled := false }
    else
      { deadline := none, cancelled := false }
  match NewTicker now wait with
  | none => none
  | some waitTicker =>
    some
      { d :=
          { f := Func.user, wait := wait, opts := options, waitTicker := waitTicker,
            i := 0, ctx := ctx, intermediateCount := 0 }
        rt := rt, now := now, log := [], spawned := 0, waiting := 0, finishing := 0,
        crashed := false }

/-- The duration `24*time.Hour` in nanoseconds. -/
def day : Int := 24 * 3600 * 1000000000

/-- The constructor `Throttle(f, minInterval)`. -/
def Throttle (rt : Runtime) (now : Nat) (minInterval : Int) : Option World :=
  New rt now day { Leading := true, Trailing := false, MaxWait := minInterval }

/-- The call `d.f()`: the caller's function is executed (and the instant logged)
unless `Cancel` has replaced it by the no-op. -/
def callF (w : World) : World :=
  match w.d.f with
  | Func.user => { w with log := w.now :: w.log }
  | Func.noop => w

/-- The method `Invoke`, up to and including the `go` statement:
`d.waitTicker.Reset(d.wait)` (`none` when it panics), then
`d.intermediateCount++`, then `atomic.CompareAndSwapUint32(&d.i, 0, 1)` and,
when the swap succeeds, `d.intermediateCount = 0` and the launch of the
goroutine. -/
def Invoke (w : World) : Option World :=
  match w.d.waitTicker.Reset w.rt w.now w.d.wait with
  | none => none
  | some t =>
    let d1 : debouncer := { w.d with waitTicker := t }
    let d2 : debouncer := { d1 with intermediateCount := wrapInt64 (d1.intermediateCount + 1) }
    if d2.i = 0 then
      some
        { w with
          d := { d2 with i := 1, intermediateCount := 0 }
          spawned := w.spawned + 1 }
    else
      some { w with d := d2 }

/-- The method `Cancel`: `d.waitTicker.Stop()`, `d.f = func() {}`, `d.cancelFunc()`. -/
def Cancel (w : World) : World :=
  { w with
    d := { w.d with
      waitTicker := w.d.waitTicker.Stop w.rt
      f := Func.noop
      ctx := { w.d.ctx with cancelled := true } } }

/-- The method `Flush`: `d.waitTicker.Reset(0)` (`none` when it panics). -/
def Flush (w : World) : Option World :=
  match w.d.waitTicker.Reset w.rt w.now 0 with
  | none => none
  | some t => some { w with d := { w.d with waitTicker := t } }

/-- A call of a method has panicked: the debouncer is as it was before the call. -/
def crash (w : World) : World :=
  { w with crashed := true }

/-- The goroutine from its start to the `select`: `if d.Leading { d.f() }`. -/
def taskStart (w : World) : World :=
  let w1 := if w.d.opts.Leading then callF w else w
  { w1 with spawned := w1.spawned - 1, waiting := w1.waiting + 1 }

/-- The branch `case <-d.waitTicker.C` of the `select`, up to the call of `d.f()`:
the tick is received and the function called as the options and the counter
say.  The goroutine has left the `select`; the guard is still held. -/
def taskTick (w : World) : World :=
  let w1 : World :=
    { w with d := { w.d with waitTicker := { w.d.waitTicker with buffered := false } } }
  let w2 :=
    if w1.d.opts.Leading && w1.d.opts.Trailing then
      (if w1.d.intermediateCount > 0 then callF w1 else w1)
    else if w1.d.opts.Trailing then callF w1
    else w1
  { w2 with waiting := w2.waiting - 1, finishing := w2.finishing + 1 }

/-- The end of a goroutine that took the ticker branch: `f` has returned and the
deferred `atomic.StoreUint32(&d.i, 0)` runs. -/
def taskExit (w : World) : World :=
  { w with d := { w.d with i := 0 }, finishing := w.finishing - 1 }

/-- The branch `case <-d.ctx.Done()` of the `select`: its body is empty, the
deferred `atomic.StoreUint32(&d.i, 0)` runs and the goroutine ends. -/
def taskDone (w : World) : World :=
  { w with d := { w.d with i := 0 }, waiting := w.waiting - 1 }

/-- Time passes. -/
def sleep (w : World) (dt : Nat) : World :=
  { w with now := w.now + dt }

/-- The runtime runs the timer of the ticker. -/
def fire (w : World) : World :=
  { w with d := { w.d with waitTicker := w.d.waitTicker.fire w.now } }

/-! ## Interleaving semantics -/

/-- Whether a step can be taken: the caller may call any method and time may
pass in every state; the runtime can run the timer when it is due; a goroutine
can start when one has been launched, leave the `select` through a branch
whose channel is ready, and end when it has left through the ticker branch. -/
def enabled (w : World) : Ev → Bool
  | Ev.fire => w.d.waitTicker.due w.now
  | Ev.taskStart => decide (0 < w.spawned)
  | Ev.taskTick => decide (0 < w.waiting) && w.d.waitTicker.buffered
  | Ev.taskDone => decide (0 < w.waiting) && w.d.ctx.done w.now
  | Ev.taskExit => decide (0 < w.finishing)
  | _ => true

/-- The effect of a step that can be taken.  A call that panics leaves the
debouncer as it was and is recorded; the run goes on as for a caller that
recovers (a program that dies there has the runs that stop there). -/
def effect (w : World) : Ev → World
  | Ev.invoke => (Invoke w).getD (crash w)
  | Ev.flush => (Flush w).getD (crash w)
  | Ev.cancel => Cancel w
  | Ev.sleep dt => sleep w dt
  | Ev.fire => fire w
  | Ev.taskStart => taskStart w
  | Ev.taskTick => taskTick w
  | Ev.taskDone => taskDone w
  | Ev.taskExit => taskExit w

/-- One step: a step that cannot be taken leaves the state as it is. -/
def step (w : World) (e : Ev) : World :=
  if enabled w e then effect w e else w

/-- A run: the steps of a schedule, one after the other. -/
def run (w : World) (es : List Ev) : World :=
  es.foldl step w

/-- The number of executions of the caller's function so far. -/
def calls (w : World) : Nat :=
  w.log.length

/-- The single-flight invariant: the guard is `0` or `1` and equals the number of
goroutines that have been launched and have not finished. -/
def SingleFlight (w : World) : Prop :=
  w.d.i ≤ 1 ∧ w.spawned + w.waiting + w.finishing = w.d.i

/-! ## Bursts -/

/-- The steps that can occur while a burst is in progress and not yet resolved:
calls of `Invoke` and `Flush`, passing time, the timer firing, and the launched
goroutine reaching its `select`. -/
def Ev.inBurst : Ev → Bool
  | Ev.invoke => true
  | Ev.flush => true
  | Ev.sleep _ => true
  | Ev.fire => true
  | Ev.taskStart => true
  | _ => false

/-- The number of calls of `Invoke` in a schedule. -/
def invokes (es : List Ev) : Nat :=
  es.count Ev.invoke

/-- Whether `d.waitTicker.Reset(d.wait)`, the first statement of `Invoke`, returns. -/
def resetReturns (w : World) : Bool :=
  !(w.rt.resetPanics && decide (w.d.wait ≤ 0))

/-- What holds during a burst on a debouncer with options `o` whose function had
been executed `c` times before: `Invoke` does not panic, the guard is taken,
the counter holds the number `k` of calls of `Invoke` after the first one, and
the goroutine either has not started or is blocked in its `select` and, when
`Leading` is set, has executed the function once. -/
def BurstInv (o : Options) (c k : Nat) (w : World) : Prop :=
  resetReturns w = true ∧ w.d.i = 1 ∧ w.d.f = Func.user ∧ w.d.opts = o ∧
    w.d.intermediateCount = (k : Int) ∧ w.finishing = 0 ∧
    ((w.spawned = 1 ∧ w.waiting = 0 ∧ calls w = c) ∨
      (w.spawned = 0 ∧ w.waiting = 1 ∧ calls w = c + (if o.Leading then 1 else 0)))

/-- What holds when the first `Invoke` of a would-be burst panics: every later
`Invoke` panics too and no goroutine is ever launched. -/
def NoBurst (w : World) : Prop :=
  resetReturns w = false ∧ w.spawned = 0 ∧ w.waiting = 0

/-- The steps that can occur while the caller keeps calling `Invoke`: the calls,
passing time, the timer firing, and the launched goroutine reaching its
`select`. -/
def Ev.calling : Ev → Bool
  | Ev.invoke => true
  | Ev.sleep _ => true
  | Ev.fire => true
  | Ev.taskStart => true
  | _ => false

/-- The steps that can occur while the caller is silent and the goroutine has not
left its `select`. -/
def Ev.idle : Ev → Bool
  | Ev.sleep _ => true
  | Ev.fire => true
  | Ev.taskStart => true
  | _ => false

/-- The time that passes during a schedule. -/
def slept : List Ev → Nat
  | [] => 0
  | Ev.sleep dt :: es => dt + slept es
  | _ :: es => slept es

/-- What the calls of `Invoke` of a burst preserve on a trailing debouncer `w0`:
function, options, quiet period, context, runtime and log of executions are
those of `w0`, no goroutine is past its `select`, and the guard counts the
goroutines. -/
def CallInv (w0 w : World) : Prop :=
  w.d.f = w0.d.f ∧ w.d.opts = w0.d.opts ∧ w.d.wait = w0.d.wait ∧ w.d.ctx = w0.d.ctx ∧
    w.rt = w0.rt ∧ w.log = w0.log ∧ w.finishing = 0 ∧ SingleFlight w

/-- What holds after the last `Invoke` of a burst, made at instant `t0`, while the
caller is silent: one goroutine is alive, and either no tick is waiting and the
timer is armed for `t0 + wait`, or a tick is waiting and that instant has
come. -/
def QuietInv (w0 : World) (t0 : Nat) (w : World) : Prop :=
  CallInv w0 w ∧ w.d.i = 1 ∧
    ((w.d.waitTicker.buffered = false ∧
        w.d.waitTicker.next = some (t0 + w0.d.wait.toNat)) ∨
      (w.d.waitTicker.buffered = true ∧ t0 + w0.d.wait.toNat ≤ w.now))

/-! ## Sample configurations -/

/-- Trailing edge only, no `MaxWait`: what `TestDebounceRunsOnce` builds. -/
def trailingOnly : Options :=
  { Leading := false, MaxWait := 0, Trailing := true }

/-- Leading and trailing edge, no `MaxWait`: what
`TestNotInkvokedDoesNothingEvenWithFlush` builds. -/
def bothEdges : Options :=
  { Leading := true, MaxWait := 0, Trailing := true }

/-- Trailing edge with a `MaxWait` of `m`. -/
def trailingMax (m : Int) : Options :=
  { Leading := false, MaxWait := m, Trailing := true }

/-- Leading and trailing edge with a `MaxWait` of `m`: what `TestMaxwaitWithTrailing` builds. -/
def bothMax (m : Int) : Options :=
  { Leading := true, MaxWait := m, Trailing := true }

/-- Leading edge with a `MaxWait` of `m`: what `Throttle` and `TestMaxWaitSansTrailing` build. -/
def leadingMax (m : Int) : Options :=
  { Leading := true, MaxWait := m, Trailing := false }

/-- The state of a debouncer just built at instant `0` on runtime `rt`, with quiet
period `q` and a context whose deadline is `dl`. -/
def fresh (rt : Runtime) (q : Nat) (o : Options) (dl : Option Nat) : World :=
  { d :=
      { f := Func.user, wait := q, opts := o,
        waitTicker := { period := q, next := some q, buffered := false },
        i := 0, ctx := { deadline := dl, cancelled := false }, intermediateCount := 0 }
    rt := rt, now := 0, log := [], spawned := 0, waiting := 0, finishing := 0,
    crashed := false }

/-! ## What `New` returns -/

theorem New_some (rt : Runtime) (now : Nat) (wait : Int) (o : Options) (w0 : World)
    (h : New rt now wait o = some w0) :
    0 < wait ∧ w0.log = [] ∧ w0.d.i = 0 ∧ w0.spawned = 0 ∧ w0.waiting = 0 ∧
      w0.finishing = 0 ∧ w0.crashed = false ∧ w0.rt = rt ∧
      w0.d.f = Func.user ∧ w0.now = now ∧ w0.d.opts = o ∧ w0.d.wait = wait ∧
      w0.d.intermediateCount = 0 ∧ w0.d.ctx.cancelled = false ∧
      w0.d.waitTicker = { period := wait, next := some (now + wait.toNat), buffered := false } ∧
      w0.d.ctx.deadline = (if o.MaxWait > 0 then some (now + o.MaxWait.toNat) else none) := by
  unfold New NewTicker at h
  by_cases hw : wait ≤ 0
  · simp [hw] at h
  · simp only [hw, if_false, Option.some.injEq] at h
    subst h
    refine ⟨by omega, rfl, rfl, rfl, rfl, rfl, rfl, rfl, rfl, rfl, rfl, rfl, rfl, ?_, rfl, ?_⟩
    · dsimp only; split <;> rfl
    · dsimp only; split <;> rfl

/-! ## Frame lemmas -/

theorem fire_keeps_buffered (t : Ticker) (now : Nat) (h : t.buffered = true) :
    (t.fire now).buffered = true := by
  unfold Ticker.fire
  split
  · exact h
  · split
    · rfl
    · exact h

theorem fire_period (t : Ticker) (now : Nat) : (t.fire now).period = t.period := by
  unfold Ticker.fire
  split
  · rfl
  · split <;> rfl

theorem fire_due (t : Ticker) (now : Nat) (h : t.due now = true) :
    (t.fire now).buffered = true := by
  unfold Ticker.due at h
  unfold Ticker.fire
  split
  · rename_i hn; rw [hn] at h; cases h
  · rename_i n hn
    rw [hn] at h
    have : n ≤ now := by simpa using h
    simp [this]

theorem Reset_some (rt : Runtime) (t t2 : Ticker) (now : Nat) (d : Int)
    (h : t.Reset rt now d = some t2) :
    t2 = { period := d, next := some (now + d.toNat),
           buffered := if rt.resetDrains then false else t.buffered } := by
  unfold Ticker.Reset at h
  split at h
  · cases h
  · exact (Option.some.inj h).symm

theorem Reset_none_iff (rt : Runtime) (t : Ticker) (now : Nat) (d : Int) :
    t.Reset rt now d = none ↔ (rt.resetPanics = true ∧ d ≤ 0) := by
  unfold Ticker.Reset
  constructor
  · intro h
    split at h
    · rename_i hc
      simpa using hc
    · cases h
  · intro h
    simp [h.1, h.2]

theorem Reset_of_returns (w : World) (d : Int)
    (h : ¬ (w.rt.resetPanics = true ∧ d ≤ 0)) :
    w.d.waitTicker.Reset w.rt w.now d =
      some { period := d, next := some (w.now + d.toNat),
             buffered := if w.rt.resetDrains then false else w.d.waitTicker.buffered } := by
  cases hr : w.d.waitTicker.Reset w.rt w.now d with
  | none => exact absurd ((Reset_none_iff _ _ _ _).1 hr) h
  | some t => rw [Reset_some _ _ _ _ _ hr]

theorem resetReturns_false (w : World) :
    resetReturns w = false ↔ (w.rt.resetPanics = true ∧ w.d.wait ≤ 0) := by
  unfold resetReturns
  simp

theorem resetReturns_true (w : World) :
    resetReturns w = true ↔ ¬ (w.rt.resetPanics = true ∧ w.d.wait ≤ 0) := by
  rw [← resetReturns_false]
  cases resetReturns w <;> simp

/-- The three ways a call of `Invoke` can go: the reset panics; the guard is
free and a goroutine is launched; the guard is held and the counter goes up. -/
theorem step_invoke (w : World) :
    (resetReturns w = false ∧ step w Ev.invoke = crash w) ∨
    (resetReturns w = true ∧ w.d.i = 0 ∧
      step w Ev.invoke =
        { w with
          d := { w.d with
            waitTicker :=
              { period := w.d.wait, next := some (w.now + w.d.wait.toNat),
                buffered := if w.rt.resetDrains then false else w.d.waitTicker.buffered }
            i := 1, intermediateCount := 0 }
          spawned := w.spawned + 1 }) ∨
    (resetReturns w = true ∧ w.d.i ≠ 0 ∧
      step w Ev.invoke =
        { w with
          d := { w.d with
            waitTicker :=
              { period := w.d.wait, next := some (w.now + w.d.wait.toNat),
                buffered := if w.rt.resetDrains then false else w.d.waitTicker.buffered }
            intermediateCount := wrapInt64 (w.d.intermediateCount + 1) } }) := by
  have hs : step w Ev.invoke = (Invoke w).getD (crash w) := rfl
  by_cases hp : w.rt.resetPanics = true ∧ w.d.wait ≤ 0
  · left
    refine ⟨(resetReturns_false w).2 hp, ?_⟩
    rw [hs]
    unfold Invoke
    rw [(Reset_none_iff _ _ _ _).2 hp]
    rfl
  · right
    have hr := Reset_of_returns w w.d.wait hp
    by_cases h0 : w.d.i = 0
    · left
      refine ⟨(resetReturns_true w).2 hp, h0, ?_⟩
      rw [hs]
      unfold Invoke
      rw [hr]
      dsimp only
      rw [if_pos h0]
      rfl
    · right
      refine ⟨(resetReturns_true w).2 hp, h0, ?_⟩
      rw [hs]
      unfold Invoke
      rw [hr]
      dsimp only
      rw [if_neg h0]
      rfl

/-- The two ways a call of `Flush` can go: the reset panics, or the timer is
armed for now, to fire one time. -/
theorem step_flush (w : World) :
    (w.rt.resetPanics = true ∧ Flush w = none ∧ step w Ev.flush = crash w) ∨
    (w.rt.resetPanics = false ∧
      step w Ev.flush =
        { w with
          d := { w.d with
            waitTicker :=
              { period := 0, next := some w.now,
                buffered := if w.rt.resetDrains then false else w.d.waitTicker.buffered } } } ∧
      Flush w = some (step w Ev.flush)) := by
  have hs : step w Ev.flush = (Flush w).getD (crash w) := rfl
  cases hp : w.rt.resetPanics
  · right
    have hr := Reset_of_returns w 0 (by simp [hp])
    have hf : Flush w = some { w with
          d := { w.d with
            waitTicker :=
              { period := 0, next := some w.now,
                buffered := if w.rt.resetDrains then false else w.d.waitTicker.buffered } } } := by
      unfold Flush
      rw [hr]
      simp
    refine ⟨rfl, ?_, ?_⟩
    · rw [hs, hf]; rfl
    · rw [hs, hf]; rfl
  · left
    have hn : Flush w = none := by
      unfold Flush
      rw [(Reset_none_iff _ _ _ _).2 ⟨hp, le_refl 0⟩]
    refine ⟨rfl, hn, ?_⟩
    rw [hs, hn]; rfl

theorem taskStart_frame (w : World) :
    (taskStart w).d = w.d ∧ (taskStart w).now = w.now ∧ (taskStart w).rt = w.rt ∧
      (taskStart w).spawned = w.spawned - 1 ∧ (taskStart w).waiting = w.waiting + 1 ∧
      (taskStart w).finishing = w.finishing := by
  unfold taskStart callF
  split <;> [split; skip] <;> exact ⟨rfl, rfl, rfl, rfl, rfl, rfl⟩

theorem taskStart_of_not_leading (w : World) (hl : w.d.opts.Leading = false) :
    taskStart w = { w with spawned := w.spawned - 1, waiting := w.waiting + 1 } := by
  simp [taskStart, hl]

theorem taskTick_frame (w : World) :
    (taskTick w).d = { w.d with waitTicker := { w.d.waitTicker with buffered := false } } ∧
      (taskTick w).now = w.now ∧ (taskTick w).rt = w.rt ∧
      (taskTick w).spawned = w.spawned ∧ (taskTick w).waiting = w.waiting - 1 ∧
      (taskTick w).finishing = w.finishing + 1 := by
  unfold taskTick callF
  dsimp only
  split <;> [split; split] <;> (try split) <;> exact ⟨rfl, rfl, rfl, rfl, rfl, rfl⟩

theorem run_cons (w : World) (e : Ev) (es : List Ev) :
    run w (e :: es) = run (step w e) es := rfl

theorem run_append (w : World) (es fs : List Ev) :
    run w (es ++ fs) = run (run w es) fs := by
  simp [run, List.foldl_append]

/-- What no step changes: the runtime, the quiet period and the options. -/
theorem step_const (w : World) (e : Ev) :
    (step w e).rt = w.rt ∧ (step w e).d.wait = w.d.wait ∧ (step w e).d.opts = w.d.opts := by
  cases e with
  | invoke =>
    rcases step_invoke w with ⟨_, h⟩ | ⟨_, _, h⟩ | ⟨_, _, h⟩ <;> (rw [h]; exact ⟨rfl, rfl, rfl⟩)
  | flush =>
    rcases step_flush w with ⟨_, _, h⟩ | ⟨_, h, _⟩ <;> (rw [h]; exact ⟨rfl, rfl, rfl⟩)
  | cancel => exact ⟨rfl, rfl, rfl⟩
  | sleep dt => exact ⟨rfl, rfl, rfl⟩
  | fire =>
    unfold step; split <;> exact ⟨rfl, rfl, rfl⟩
  | taskStart =>
    unfold step; split
    · have h := taskStart_frame w
      show (taskStart w).rt = _ ∧ (taskStart w).d.wait = _ ∧ (taskStart w).d.opts = _
      rw [h.1, h.2.2.1]; exact ⟨rfl, rfl, rfl⟩
    · exact ⟨rfl, rfl, rfl⟩
  | taskTick =>
    unfold step; split
    · have h := taskTick_frame w
      show (taskTick w).rt = _ ∧ (taskTick w).d.wait = _ ∧ (taskTick w).d.opts = _
      rw [h.1, h.2.2.1]; exact ⟨rfl, rfl, rfl⟩
    · exact ⟨rfl, rfl, rfl⟩
  | taskDone =>
    unfold step; split <;> exact ⟨rfl, rfl, rfl⟩
  | taskExit =>
    unfold step; split <;> exact ⟨rfl, rfl, rfl⟩

/-! ## Cancellation (C1) -/

theorem callF_of_noop (w : World) (h : w.d.f = Func.noop) : callF w = w := by
  simp [callF, h]

theorem step_of_noop (w : World) (e : Ev) (h : w.d.f = Func.noop) :
    (step w e).d.f = Func.noop ∧ (step w e).log = w.log := by
  cases e with
  | invoke =>
    rcases step_invoke w with ⟨_, hs⟩ | ⟨_, _, hs⟩ | ⟨_, _, hs⟩ <;> (rw [hs]; exact ⟨h, rfl⟩)
  | flush =>
    rcases step_flush w with ⟨_, _, hs⟩ | ⟨_, hs, _⟩ <;> (rw [hs]; exact ⟨h, rfl⟩)
  | cancel => exact ⟨rfl, rfl⟩
  | sleep dt => exact ⟨h, rfl⟩
  | fire => unfold step; split <;> exact ⟨h, rfl⟩
  | taskStart =>
    unfold step; split
    · have e1 : taskStart w = { w with spawned := w.spawned - 1, waiting := w.waiting + 1 } := by
        unfold taskStart; rw [callF_of_noop w h]; simp
      show (taskStart w).d.f = Func.noop ∧ (taskStart w).log = w.log
      rw [e1]; exact ⟨h, rfl⟩
    · exact ⟨h, rfl⟩
  | taskTick =>
    unfold step; split
    · show (taskTick w).d.f = Func.noop ∧ (taskTick w).log = w.log
      refine ⟨by rw [(taskTick_frame w).1]; exact h, ?_⟩
      simp [taskTick, callF, h]
    · exact ⟨h, rfl⟩
  | taskDone => unfold step; split <;> exact ⟨h, rfl⟩
  | taskExit => unfold step; split <;> exact ⟨h, rfl⟩

theorem run_of_noop (es : List Ev) (w : World) (h : w.d.f = Func.noop) :
    (run w es).d.f = Func.noop ∧ (run w es).log = w.log := by
  induction es generalizing w with
  | nil => exact ⟨h, rfl⟩
  | cons e es ih =>
    have hs := step_of_noop w e h
    have := ih (step w e) hs.1
    simp only [run, List.foldl_cons] at this ⊢
    exact ⟨this.1, this.2.trans hs.2⟩

theorem step_invoke_log (w : World) : (step w Ev.invoke).log = w.log := by
  rcases step_invoke w with ⟨_, hs⟩ | ⟨_, _, hs⟩ | ⟨_, _, hs⟩
  · rw [hs]; rfl
  · rw [hs]
  · rw [hs]

/-- C1: once `Cancel` has been called, whatever the runtime, the configuration
and whatever was going on (goroutines launched, blocked in the `select` or past
it), no schedule of later `Invoke`, `Flush`, `Cancel`, passing time, timer and
goroutine steps executes the caller's function: the log of executions stays
what it was.  In particular a fresh debouncer that is invoked and cancelled at
once never executes it. -/
theorem cancel_is_final (w : World) (es : List Ev) :
    (run (Cancel w) es).log = w.log ∧
    (run (step w Ev.cancel) es).log = w.log ∧
    calls (run (Cancel w) es) = calls w ∧
    (∀ (rt : Runtime) (now : Nat) (wait : Int) (o : Options) (w0 : World),
      New rt now wait o = some w0 →
        calls (run w0 (Ev.invoke :: Ev.cancel :: es)) = 0) := by
  have hc : (run (Cancel w) es).log = w.log := (run_of_noop es (Cancel w) rfl).2
  refine ⟨hc, hc, by simp [calls, hc], ?_⟩
  intro rt now wait o w0 h0
  have hlog : w0.log = [] := (New_some rt now wait o w0 h0).2.1
  have h2 : (run (Cancel (step w0 Ev.invoke)) es).log = (step w0 Ev.invoke).log :=
    (run_of_noop es (Cancel (step w0 Ev.invoke)) rfl).2
  have h4 : run w0 (Ev.invoke :: Ev.cancel :: es) = run (Cancel (step w0 Ev.invoke)) es := rfl
  simp [calls, h4, h2, step_invoke_log, hlog]

/-- A goroutine is blocked in the `select` of a trailing debouncer (quiet period
one second, tick already pending) when `Cancel` is called; and the test
`TestDebounceCancelPreventsInvoke`. -/
theorem cancel_is_final_witness :
    (run (Cancel (run (fresh go117 1000000000 trailingOnly none)
          [Ev.invoke, Ev.taskStart, Ev.flush, Ev.fire]))
        [Ev.taskTick, Ev.taskExit, Ev.invoke, Ev.taskStart, Ev.flush, Ev.fire, Ev.taskTick]).log
      = [] ∧
    (run (fresh go117 1000000000 trailingOnly none)
      [Ev.invoke, Ev.taskStart, Ev.flush, Ev.fire]).d.waitTicker.buffered = true ∧
    New go123 0 1000000000 trailingOnly = some (fresh go123 1000000000 trailingOnly none) ∧
    calls (run (fresh go123 1000000000 trailingOnly none)
      [Ev.invoke, Ev.cancel, Ev.taskStart, Ev.sleep 1000000000, Ev.fire, Ev.taskTick,
        Ev.taskDone]) = 0 :=
  ⟨(cancel_is_final _ _).1, rfl, rfl,
    (cancel_is_final (fresh go117 1 trailingOnly none) _).2.2.2 go123 0 1000000000
      trailingOnly _ rfl⟩

/-! ## Single flight (C5) -/

theorem run_const (es : List Ev) (w : World) :
    (run w es).rt = w.rt ∧ (run w es).d.wait = w.d.wait ∧ (run w es).d.opts = w.d.opts := by
  induction es generalizing w with
  | nil => exact ⟨rfl, rfl, rfl⟩
  | cons e es ih =>
    have h1 := step_const w e
    have h2 := ih (step w e)
    rw [run_cons]
    exact ⟨h2.1.trans h1.1, h2.2.1.trans h1.2.1, h2.2.2.trans h1.2.2⟩

theorem singleFlight_step (w : World) (e : Ev) (h : SingleFlight w) :
    SingleFlight (step w e) := by
  obtain ⟨h1, h2⟩ := h
  cases e with
  | invoke =>
    rcases step_invoke w with ⟨_, hs⟩ | ⟨_, h0, hs⟩ | ⟨_, h0, hs⟩
    · rw [hs]; exact ⟨h1, h2⟩
    · rw [hs]
      refine ⟨Nat.le_refl 1, ?_⟩
      show w.spawned + 1 + w.waiting + w.finishing = 1
      omega
    · rw [hs]; exact ⟨h1, h2⟩
  | flush =>
    rcases step_flush w with ⟨_, _, hs⟩ | ⟨_, hs, _⟩ <;> (rw [hs]; exact ⟨h1, h2⟩)
  | cancel => exact ⟨h1, h2⟩
  | sleep dt => exact ⟨h1, h2⟩
  | fire => unfold step; split <;> exact ⟨h1, h2⟩
  | taskStart =>
    unfold step; split
    · rename_i hen
      have hs : 0 < w.spawned := by simpa [enabled] using hen
      have hfr := taskStart_frame w
      show (taskStart w).d.i ≤ 1 ∧
        (taskStart w).spawned + (taskStart w).waiting + (taskStart w).finishing = (taskStart w).d.i
      rw [hfr.1, hfr.2.2.2.1, hfr.2.2.2.2.1, hfr.2.2.2.2.2]
      omega
    · exact ⟨h1, h2⟩
  | taskTick =>
    unfold step; split
    · rename_i hen
      have hs : 0 < w.waiting := by
        have := hen; simp [enabled] at this; exact this.1
      have hfr := taskTick_frame w
      show (taskTick w).d.i ≤ 1 ∧
        (taskTick w).spawned + (taskTick w).waiting + (taskTick w).finishing = (taskTick w).d.i
      rw [hfr.1, hfr.2.2.2.1, hfr.2.2.2.2.1, hfr.2.2.2.2.2]
      show w.d.i ≤ 1 ∧ w.spawned + (w.waiting - 1) + (w.finishing + 1) = w.d.i
      omega
    · exact ⟨h1, h2⟩
  | taskDone =>
    unfold step; split
    · rename_i hen
      have hs : 0 < w.waiting := by
        have := hen; simp [enabled] at this; exact this.1
      show (0 : Nat) ≤ 1 ∧ w.spawned + (w.waiting - 1) + w.finishing = 0
      omega
    · exact ⟨h1, h2⟩
  | taskExit =>
    unfold step; split
    · rename_i hen
      have hs : 0 < w.finishing := by simpa [enabled] using hen
      show (0 : Nat) ≤ 1 ∧ w.spawned + w.waiting + (w.finishing - 1) = 0
      omega
    · exact ⟨h1, h2⟩

theorem singleFlight_run (es : List Ev) (w : World) (h : SingleFlight w) :
    SingleFlight (run w es) := by
  induction es generalizing w with
  | nil => exact h
  | cons e es ih => exact ih (step w e) (singleFlight_step w e h)

/-- C5: in every state `w` reached from `New` by any schedule of `Invoke`,
`Flush`, `Cancel`, passing time, timer and goroutine steps, on any runtime, at
most one goroutine is alive (launched, blocked in the `select`, or past it with
the guard not yet released) and the guard `i` is `1` exactly when one is.
`Invoke` launches a goroutine exactly when it finds the guard at `0` (and sets
it to `1`); with the guard at `1` it launches none.  A goroutine that leaves
the `select` through the ticker branch keeps the guard while `f` runs and
releases it when it ends; one that leaves through the `ctx.Done()` branch
(deadline or `Cancel`) releases it at once; either way the guard ends at `0`
with no goroutine alive. -/
theorem single_flight (rt : Runtime) (now : Nat) (wait : Int) (o : Options) (w0 : World)
    (h0 : New rt now wait o = some w0) (es : List Ev) (w : World) (hw : w = run w0 es) :
    w.spawned + w.waiting + w.finishing ≤ 1 ∧
    (w.d.i = 1 ↔ w.spawned + w.waiting + w.finishing = 1) ∧
    (w.d.i = 0 ↔ w.spawned + w.waiting + w.finishing = 0) ∧
    (w.d.i = 0 →
      (step w Ev.invoke).d.i = 1 ∧ (step w Ev.invoke).spawned = w.spawned + 1 ∧
        (step w Ev.invoke).waiting = w.waiting ∧
        (step w Ev.invoke).finishing = w.finishing) ∧
    (w.d.i = 1 →
      (step w Ev.invoke).d.i = 1 ∧ (step w Ev.invoke).spawned = w.spawned ∧
        (step w Ev.invoke).waiting = w.waiting ∧
        (step w Ev.invoke).finishing = w.finishing) ∧
    (enabled w Ev.taskTick = true →
      (step w Ev.taskTick).d.i = 1 ∧ (step w Ev.taskTick).finishing = 1 ∧
        enabled (step w Ev.taskTick) Ev.taskExit = true ∧
        (run w [Ev.taskTick, Ev.taskExit]).d.i = 0 ∧
        (run w [Ev.taskTick, Ev.taskExit]).spawned + (run w [Ev.taskTick, Ev.taskExit]).waiting
          + (run w [Ev.taskTick, Ev.taskExit]).finishing = 0) ∧
    (enabled w Ev.taskExit = true →
      (step w Ev.taskExit).d.i = 0 ∧
        (step w Ev.taskExit).spawned + (step w Ev.taskExit).waiting
          + (step w Ev.taskExit).finishing = 0) ∧
    (enabled w Ev.taskDone = true →
      (step w Ev.taskDone).d.i = 0 ∧
        (step w Ev.taskDone).spawned + (step w Ev.taskDone).waiting
          + (step w Ev.taskDone).finishing = 0) := by
  have hn := New_some rt now wait o w0 h0
  have hinit : SingleFlight w0 := by
    refine ⟨?_, ?_⟩
    · rw [hn.2.2.1]; exact Nat.zero_le 1
    · rw [hn.2.2.1, hn.2.2.2.1, hn.2.2.2.2.1, hn.2.2.2.2.2.1]
  have hinv : SingleFlight w := hw ▸ singleFlight_run es w0 hinit
  have hwait : 0 < w.d.wait := by
    rw [hw, (run_const es w0).2.1, hn.2.2.2.2.2.2.2.2.2.2.2.1]; exact hn.1
  have hret : resetReturns w = true := (resetReturns_true w).2 (fun h => by omega)
  have exit_of : ∀ v : World, SingleFlight v → enabled v Ev.taskExit = true →
      (step v Ev.taskExit).d.i = 0 ∧
        (step v Ev.taskExit).spawned + (step v Ev.taskExit).waiting
          + (step v Ev.taskExit).finishing = 0 := by
    intro v hv hen
    have hs : 0 < v.finishing := by simpa [enabled] using hen
    have : step v Ev.taskExit = taskExit v := by simp [step, hen, effect]
    rw [this]
    obtain ⟨a, b⟩ := hv
    refine ⟨rfl, ?_⟩
    show v.spawned + v.waiting + (v.finishing - 1) = 0
    omega
  obtain ⟨h1, h2⟩ := hinv
  refine ⟨by omega, by omega, by omega, ?_, ?_, ?_, exit_of w ⟨h1, h2⟩, ?_⟩
  · intro hi
    rcases step_invoke w with ⟨hr, _⟩ | ⟨_, _, hs⟩ | ⟨_, hne, _⟩
    · rw [hret] at hr; cases hr
    · rw [hs]; exact ⟨rfl, rfl, rfl, rfl⟩
    · exact absurd hi hne
  · intro hi
    rcases step_invoke w with ⟨hr, _⟩ | ⟨_, hz, _⟩ | ⟨_, _, hs⟩
    · rw [hret] at hr; cases hr
    · omega
    · rw [hs]; exact ⟨hi, rfl, rfl, rfl⟩
  · intro hen
    have hs : 0 < w.waiting := by
      have := hen; simp [enabled] at this; exact this.1
    have hst : step w Ev.taskTick = taskTick w := by simp [step, hen, effect]
    have hfr := taskTick_frame w
    have hsf2 : SingleFlight (step w Ev.taskTick) := singleFlight_step w Ev.taskTick ⟨h1, h2⟩
    have hi2 : (step w Ev.taskTick).d.i = 1 := by
      rw [hst, hfr.1]; show w.d.i = 1; omega
    have hf2 : (step w Ev.taskTick).finishing = 1 := by
      rw [hst, hfr.2.2.2.2.2]; omega
    have hen2 : enabled (step w Ev.taskTick) Ev.taskExit = true := by
      simp [enabled, hf2]
    have hx := exit_of (step w Ev.taskTick) hsf2 hen2
    exact ⟨hi2, hf2, hen2, hx.1, hx.2⟩
  · intro hen
    have hs : 0 < w.waiting := by
      have := hen; simp [enabled] at this; exact this.1
    have : step w Ev.taskDone = taskDone w := by simp [step, hen, effect]
    rw [this]
    refine ⟨rfl, ?_⟩
    show w.spawned + (w.waiting - 1) + w.finishing = 0
    omega

/-- A leading and trailing debouncer with `MaxWait`: two `Invoke`, the goroutine
starts, the deadline passes. -/
theorem single_flight_witness :
    New go118 0 1000 (bothMax 5) = some (fresh go118 1000 (bothMax 5) (some 5)) ∧
    enabled (run (fresh go118 1000 (bothMax 5) (some 5))
      [Ev.invoke, Ev.invoke, Ev.taskStart, Ev.sleep 5]) Ev.taskDone = true ∧
    (run (fresh go118 1000 (bothMax 5) (some 5))
      [Ev.invoke, Ev.invoke, Ev.taskStart, Ev.sleep 5, Ev.taskDone]).d.i = 0 :=
  ⟨rfl, rfl,
    ((single_flight go118 0 1000 (bothMax 5) _ rfl
      [Ev.invoke, Ev.invoke, Ev.taskStart, Ev.sleep 5] _ rfl).2.2.2.2.2.2.2 rfl).1⟩

/-! ## The two branches of the `select` (C9) -/

/-- C9: the `ctx.Done()` branch, taken on deadline expiry or after `Cancel`,
executes nothing, whatever the options and the value of `intermediateCount`: it
leaves the log of executions, the function, the counter, the ticker and the
context as they are and only stores `0` in the guard and ends the goroutine.
A step that adds an execution is either the start of a goroutine of a `Leading`
debouncer (the leading execution) or the ticker branch of a `Trailing` one. -/
theorem done_branch_is_silent (w : World) :
    (taskDone w).log = w.log ∧
    (taskDone w).d = { w.d with i := 0 } ∧
    (taskDone w).d.i = 0 ∧
    (taskDone w).waiting = w.waiting - 1 ∧
    (step w Ev.taskDone).log = w.log ∧
    (∀ e : Ev, (step w e).log ≠ w.log →
      (e = Ev.taskStart ∧ w.d.opts.Leading = true) ∨
        (e = Ev.taskTick ∧ w.d.opts.Trailing = true)) := by
  refine ⟨rfl, rfl, rfl, rfl, ?_, ?_⟩
  · unfold step; split <;> rfl
  · intro e he
    cases e with
    | invoke => exact absurd (step_invoke_log w) he
    | flush =>
      refine absurd ?_ he
      rcases step_flush w with ⟨_, _, hs⟩ | ⟨_, hs, _⟩
      · rw [hs]; rfl
      · rw [hs]
    | cancel => exact absurd rfl he
    | sleep dt => exact absurd rfl he
    | fire => refine absurd ?_ he; unfold step; split <;> rfl
    | taskStart =>
      refine Or.inl ⟨rfl, ?_⟩
      by_contra hl
      apply he
      unfold step; split
      · simp [effect, taskStart, hl]
      · rfl
    | taskTick =>
      refine Or.inr ⟨rfl, ?_⟩
      by_contra ht
      apply he
      unfold step; split
      · simp [effect, taskTick, ht]
      · rfl
    | taskDone => refine absurd ?_ he; unfold step; split <;> rfl
    | taskExit => refine absurd ?_ he; unfold step; split <;> rfl

/-- `TestMaxWaitSansTrailing` and a leading and trailing variant with pending
calls: the deadline resolves the goroutine and the count stays at one. -/
theorem done_branch_is_silent_witness :
    (run (fresh go117 1000 (bothMax 5) (some 5))
      [Ev.invoke, Ev.taskStart, Ev.invoke, Ev.invoke, Ev.sleep 5, Ev.taskDone]).log = [0] ∧
    (step (run (fresh go117 1000 (bothMax 5) (some 5))
      [Ev.invoke, Ev.taskStart, Ev.invoke, Ev.invoke, Ev.sleep 5]) Ev.taskDone).log = [0] ∧
    ((Ev.taskTick = Ev.taskStart ∧
        (run (fresh go117 1 trailingOnly none)
          [Ev.invoke, Ev.taskStart, Ev.sleep 1, Ev.fire]).d.opts.Leading = true) ∨
      (Ev.taskTick = Ev.taskTick ∧
        (run (fresh go117 1 trailingOnly none)
          [Ev.invoke, Ev.taskStart, Ev.sleep 1, Ev.fire]).d.opts.Trailing = true)) :=
  ⟨rfl, (done_branch_is_silent _).2.2.2.2.1,
    (done_branch_is_silent
      (run (fresh go117 1 trailingOnly none) [Ev.invoke, Ev.taskStart, Ev.sleep 1, Ev.fire])).2.2.2.2.2
      Ev.taskTick (by decide)⟩

/-! ## Construction (C8) -/

/-- C8, as stated, fails on the code: `New` accepts a negative `MaxWait` (the
context then gets no deadline), and it does not accept a quiet period of zero
(`time.NewTicker(0)` panics). -/
theorem New_validation_counterexample :
    New go123 0 5 (trailingMax (-1)) = some (fresh go123 5 (trailingMax (-1)) none) ∧
    New go123 0 0 trailingOnly = none ∧
    New go117 0 5 (trailingMax (-1)) = some (fresh go117 5 (trailingMax (-1)) none) ∧
    New go117 0 0 trailingOnly = none :=
  ⟨rfl, rfl, rfl, rfl⟩

/-- C8, amended: on every runtime `New` fails exactly when the quiet period `wait`
is not positive (through `time.NewTicker`), whatever `MaxWait` is; when `wait` is
positive it returns a debouncer with the guard at `0`, no goroutine, no
execution, the caller's function loaded, a context that is not cancelled, and
a deadline exactly when `MaxWait` is positive: then `MaxWait` after the call of
`New`. -/
theorem New_fails_iff (rt : Runtime) (now : Nat) (wait : Int) (o : Options) :
    (New rt now wait o = none ↔ wait ≤ 0) ∧
    (0 < wait →
      ∃ w0, New rt now wait o = some w0 ∧ w0.d.i = 0 ∧ w0.spawned = 0 ∧ w0.waiting = 0 ∧
        w0.finishing = 0 ∧ w0.crashed = false ∧
        w0.log = [] ∧ w0.d.f = Func.user ∧ w0.d.ctx.cancelled = false ∧
        w0.d.waitTicker.buffered = false ∧
        (o.MaxWait ≤ 0 → w0.d.ctx.deadline = none) ∧
        (0 < o.MaxWait → w0.d.ctx.deadline = some (now + o.MaxWait.toNat))) := by
  have key : 0 < wait → ∃ w0, New rt now wait o = some w0 := by
    intro hw
    have : ¬ wait ≤ 0 := by omega
    simp [New, NewTicker, this]
  constructor
  · constructor
    · intro hn
      by_contra hw
      obtain ⟨w0, h0⟩ := key (by omega)
      rw [hn] at h0
      cases h0
    · intro hw
      simp [New, NewTicker, hw]
  · intro hw
    obtain ⟨w0, h0⟩ := key hw
    obtain ⟨_, a2, a3, a4, a5, a6, a7, _, a9, _, _, _, _, a14, a15, a16⟩ :=
      New_some rt now wait o w0 h0
    refine ⟨w0, h0, a3, a4, a5, a6, a7, a2, a9, a14, ?_, ?_, ?_⟩
    · rw [a15]
    · intro hm
      have : ¬ o.MaxWait > 0 := by omega
      rw [a16, if_neg this]
    · intro hm
      rw [a16, if_pos hm]

/-- A quiet period of one millisecond with a negative `MaxWait` is accepted. -/
theorem New_fails_iff_witness :
    ∃ w0, New go123 7 1000000 (trailingMax (-3)) = some w0 ∧ w0.d.i = 0 ∧ w0.spawned = 0 ∧
      w0.waiting = 0 ∧ w0.finishing = 0 ∧ w0.crashed = false ∧
      w0.log = [] ∧ w0.d.f = Func.user ∧ w0.d.ctx.cancelled = false ∧
      w0.d.waitTicker.buffered = false ∧
      ((trailingMax (-3)).MaxWait ≤ 0 → w0.d.ctx.deadline = none) ∧
      (0 < (trailingMax (-3)).MaxWait →
        w0.d.ctx.deadline = some (7 + (trailingMax (-3)).MaxWait.toNat)) :=
  (New_fails_iff go123 7 1000000 (trailingMax (-3))).2 (by decide)

/-! ## The deadline is set once, in `New` (C4, C10) -/

theorem step_ctx (w : World) (e : Ev) :
    (step w e).d.ctx.deadline = w.d.ctx.deadline ∧
      (w.d.ctx.cancelled = true → (step w e).d.ctx.cancelled = true) ∧
      w.now ≤ (step w e).now := by
  cases e with
  | invoke =>
    rcases step_invoke w with ⟨_, hs⟩ | ⟨_, _, hs⟩ | ⟨_, _, hs⟩ <;>
      (rw [hs]; exact ⟨rfl, id, Nat.le_refl _⟩)
  | flush =>
    rcases step_flush w with ⟨_, _, hs⟩ | ⟨_, hs, _⟩ <;>
      (rw [hs]; exact ⟨rfl, id, Nat.le_refl _⟩)
  | cancel => exact ⟨rfl, fun _ => rfl, Nat.le_refl _⟩
  | sleep dt => exact ⟨rfl, id, Nat.le_add_right _ _⟩
  | fire => unfold step; split <;> exact ⟨rfl, id, Nat.le_refl _⟩
  | taskStart =>
    unfold step; split
    · have hfr := taskStart_frame w
      show (taskStart w).d.ctx.deadline = _ ∧ (_ → (taskStart w).d.ctx.cancelled = true) ∧
        w.now ≤ (taskStart w).now
      rw [hfr.1, hfr.2.1]
      exact ⟨rfl, id, Nat.le_refl _⟩
    · exact ⟨rfl, id, Nat.le_refl _⟩
  | taskTick =>
    unfold step; split
    · have hfr := taskTick_frame w
      show (taskTick w).d.ctx.deadline = _ ∧ (_ → (taskTick w).d.ctx.cancelled = true) ∧
        w.now ≤ (taskTick w).now
      rw [hfr.1, hfr.2.1]
      exact ⟨rfl, id, Nat.le_refl _⟩
    · exact ⟨rfl, id, Nat.le_refl _⟩
  | taskDone => unfold step; split <;> exact ⟨rfl, id, Nat.le_refl _⟩
  | taskExit => unfold step; split <;> exact ⟨rfl, id, Nat.le_refl _⟩

theorem done_mono (c c2 : Context) (n n2 : Nat) (hd : c2.deadline = c.deadline)
    (hc : c.cancelled = true → c2.cancelled = true) (hn : n ≤ n2)
    (h : c.done n = true) : c2.done n2 = true := by
  unfold Context.done at h ⊢
  rw [hd]
  cases hcc : c.cancelled
  · rw [hcc] at h
    cases hdl : c.deadline with
    | none => rw [hdl] at h; simp at h
    | some dl =>
      rw [hdl] at h
      have : dl ≤ n := by simpa using h
      have : dl ≤ n2 := by omega
      simp [this]
  · simp [hc hcc]

/-- The context is built once, in `New`: no step gives it a new deadline, and once
it is done (deadline passed, or `Cancel`) it is done in every later state. -/
theorem ctx_done_forever (es : List Ev) (w : World) :
    (run w es).d.ctx.deadline = w.d.ctx.deadline ∧
    (w.d.ctx.done w.now = true → (run w es).d.ctx.done (run w es).now = true) := by
  induction es generalizing w with
  | nil => exact ⟨rfl, id⟩
  | cons e es ih =>
    have h1 := step_ctx w e
    have h2 := ih (step w e)
    rw [run_cons]
    exact ⟨h2.1.trans h1.1, fun h => h2.2 (done_mono _ _ _ _ h1.1 h1.2.1 h1.2.2 h)⟩

/-- Once the context is done, a `Leading` debouncer does not throttle: an `Invoke`
on the idle debouncer launches a goroutine that executes the function and can
leave through `ctx.Done()` without any time passing, after which the
debouncer is idle again with its context still done. -/
theorem done_context_never_throttles (w : World)
    (hi : w.d.i = 0) (hs : w.spawned = 0) (hwt : w.waiting = 0) (hf : w.d.f = Func.user)
    (hq : 0 < w.d.wait)
    (hL : w.d.opts.Leading = true) (hctx : w.d.ctx.done w.now = true) :
    enabled (run w [Ev.invoke, Ev.taskStart]) Ev.taskDone = true ∧
    (run w [Ev.invoke, Ev.taskStart, Ev.taskDone]).log = w.now :: w.log ∧
    (run w [Ev.invoke, Ev.taskStart, Ev.taskDone]).now = w.now ∧
    (run w [Ev.invoke, Ev.taskStart, Ev.taskDone]).d.i = 0 ∧
    (run w [Ev.invoke, Ev.taskStart, Ev.taskDone]).spawned = 0 ∧
    (run w [Ev.invoke, Ev.taskStart, Ev.taskDone]).waiting = 0 ∧
    (run w [Ev.invoke, Ev.taskStart, Ev.taskDone]).d.f = Func.user ∧
    (run w [Ev.invoke, Ev.taskStart, Ev.taskDone]).d.opts = w.d.opts ∧
    (run w [Ev.invoke, Ev.taskStart, Ev.taskDone]).d.wait = w.d.wait ∧
    (run w [Ev.invoke, Ev.taskStart, Ev.taskDone]).d.ctx.done
      (run w [Ev.invoke, Ev.taskStart, Ev.taskDone]).now = true := by
  have hret : resetReturns w = true := (resetReturns_true w).2 (fun h => by omega)
  have h1 : step w Ev.invoke =
      { w with
        d := { w.d with
          waitTicker :=
            { period := w.d.wait, next := some (w.now + w.d.wait.toNat),
              buffered := if w.rt.resetDrains then false else w.d.waitTicker.buffered }
          i := 1, intermediateCount := 0 }
        spawned := w.spawned + 1 } := by
    rcases step_invoke w with ⟨hr, _⟩ | ⟨_, _, h⟩ | ⟨_, hne, _⟩
    · rw [hret] at hr; cases hr
    · exact h
    · exact absurd hi hne
  have h2 : run w [Ev.invoke, Ev.taskStart] =
      { w with
        d := { w.d with
          waitTicker :=
            { period := w.d.wait, next := some (w.now + w.d.wait.toNat),
              buffered := if w.rt.resetDrains then false else w.d.waitTicker.buffered }
          i := 1, intermediateCount := 0 }
        log := w.now :: w.log, spawned := 0, waiting := 1 } := by
    have a : run w [Ev.invoke, Ev.taskStart] = step (step w Ev.invoke) Ev.taskStart := rfl
    rw [a, h1]
    simp [step, enabled, effect, taskStart, callF, hL, hf, hs, hwt]
  have hen : enabled (run w [Ev.invoke, Ev.taskStart]) Ev.taskDone = true := by
    rw [h2]
    simp only [enabled]
    rw [show (decide (0 < 1) && w.d.ctx.done w.now) = true by rw [hctx]; rfl]
  have h3 : run w [Ev.invoke, Ev.taskStart, Ev.taskDone] =
      taskDone (run w [Ev.invoke, Ev.taskStart]) := by
    have a : run w [Ev.invoke, Ev.taskStart, Ev.taskDone] =
        step (run w [Ev.invoke, Ev.taskStart]) Ev.taskDone := rfl
    rw [a]
    simp [step, hen, effect]
  rw [h3]
  refine ⟨hen, ?_, ?_, rfl, ?_, ?_, ?_, ?_, ?_, ?_⟩ <;> rw [h2]
  · rfl
  · rfl
  · rfl
  · rfl
  · exact hf
  · rfl
  · rfl
  · exact hctx

/-- A throttled debouncer invoked after its deadline. -/
theorem done_context_never_throttles_witness :
    (run (run (fresh go123 86400000000000 (leadingMax 2000000) (some 2000000))
        [Ev.sleep 3000000])
      [Ev.invoke, Ev.taskStart, Ev.taskDone]).log = [3000000] :=
  (done_context_never_throttles
    (run (fresh go123 86400000000000 (leadingMax 2000000) (some 2000000)) [Ev.sleep 3000000])
    rfl rfl rfl rfl (by decide) rfl rfl).2.1

/-- C4 fails on the code, on every runtime. `Throttle(f, 2ms)` and the calls of
`TestThrottle`, the goroutines being scheduled as soon as they are launched: the
first goroutine executes `f` at `0` and ends at the deadline, `2ms` after `New`;
from then on the context stays done, so after the sleep every `Invoke` launches
a goroutine that executes `f` and ends at once.  With a microsecond between the
calls `f` is executed at `3ms`, `3.001ms` and `3.002ms`: four executions, the
last three one microsecond apart, where the claim asks for two milliseconds. -/
theorem throttle_after_deadline (rt : Runtime) :
    Throttle rt 0 2000000 =
      some (fresh rt 86400000000000 (leadingMax 2000000) (some 2000000)) ∧
    (run (fresh rt 86400000000000 (leadingMax 2000000) (some 2000000))
      [Ev.invoke, Ev.taskStart, Ev.invoke, Ev.sleep 3000000, Ev.taskDone,
        Ev.invoke, Ev.taskStart, Ev.taskDone, Ev.sleep 1000,
        Ev.invoke, Ev.taskStart, Ev.taskDone, Ev.sleep 1000,
        Ev.invoke, Ev.taskStart, Ev.taskDone, Ev.sleep 3000000]).log
      = [3002000, 3001000, 3000000, 0] := by
  rcases rt with ⟨_ | _, _ | _⟩ <;> decide

/-- C10 fails on the code, on every runtime. `MaxWait = 2ms`, quiet period one
second.  A first `Invoke` three milliseconds after `New`: the goroutine it
launches can leave through `ctx.Done()` at the very instant it starts.  And a
second burst, one millisecond after the first one was ended by the deadline:
its goroutine too can leave through `ctx.Done()` at the instant it starts
(`3ms`), the deadline being still the one of `New` (`2ms`). -/
theorem deadline_counts_from_New (rt : Runtime) :
    New rt 0 1000000000 (leadingMax 2000000) =
      some (fresh rt 1000000000 (leadingMax 2000000) (some 2000000)) ∧
    (run (fresh rt 1000000000 (leadingMax 2000000) (some 2000000))
      [Ev.sleep 3000000, Ev.invoke, Ev.taskStart]).now = 3000000 ∧
    enabled (run (fresh rt 1000000000 (leadingMax 2000000) (some 2000000))
      [Ev.sleep 3000000, Ev.invoke, Ev.taskStart]) Ev.taskDone = true ∧
    (run (fresh rt 1000000000 (leadingMax 2000000) (some 2000000))
      [Ev.sleep 3000000, Ev.invoke, Ev.taskStart, Ev.taskDone]).waiting = 0 ∧
    (run (fresh rt 1000000000 (leadingMax 2000000) (some 2000000))
      [Ev.invoke, Ev.taskStart, Ev.sleep 2000000, Ev.taskDone, Ev.sleep 1000000,
        Ev.invoke, Ev.taskStart]).d.ctx.deadline = some 2000000 ∧
    enabled (run (fresh rt 1000000000 (leadingMax 2000000) (some 2000000))
      [Ev.invoke, Ev.taskStart, Ev.sleep 2000000, Ev.taskDone, Ev.sleep 1000000,
        Ev.invoke, Ev.taskStart]) Ev.taskDone = true := by
  rcases rt with ⟨_ | _, _ | _⟩ <;> decide

/-! ## Leading and trailing edge (C3) -/

theorem wrapInt64_of_range (x : Int) (h0 : 0 ≤ x) (h1 : x < 2 ^ 63) : wrapInt64 x = x := by
  unfold wrapInt64
  have e63 : (2 : Int) ^ 63 = 9223372036854775808 := by norm_num
  have e64 : (2 : Int) ^ 64 = 18446744073709551616 := by norm_num
  rw [e63] at h1
  rw [e63, e64]
  omega

theorem burstInv_step (o : Options) (c k : Nat) (w : World) (e : Ev)
    (h : BurstInv o c k w) (he : e.inBurst = true)
    (hk : k + invokes [e] < 2 ^ 63) :
    BurstInv o c (k + invokes [e]) (step w e) := by
  obtain ⟨hr, hi, hf, ho, hc, hfin, hph⟩ := h
  cases e with
  | invoke =>
    have hinv : invokes [Ev.invoke] = 1 := by decide
    rw [hinv] at hk ⊢
    have hwr : wrapInt64 (w.d.intermediateCount + 1) = ((k + 1 : Nat) : Int) := by
      rw [hc, wrapInt64_of_range]
      · push_cast; rfl
      · omega
      · have : ((k + 1 : Nat) : Int) < 2 ^ 63 := by exact_mod_cast hk
        push_cast at this; exact this
    rcases step_invoke w with ⟨hr0, _⟩ | ⟨_, h0, _⟩ | ⟨_, _, hs⟩
    · rw [hr] at hr0; cases hr0
    · omega
    · rw [hs]
      exact ⟨hr, hi, hf, ho, hwr, hfin, hph⟩
  | flush =>
    have hinv : invokes [Ev.flush] = 0 := by decide
    rw [hinv]
    rcases step_flush w with ⟨_, _, hs⟩ | ⟨_, hs, _⟩ <;>
      (rw [hs]; exact ⟨hr, hi, hf, ho, hc, hfin, hph⟩)
  | sleep dt =>
    have hinv : invokes [Ev.sleep dt] = 0 := by
      simp [invokes]
    rw [hinv]
    exact ⟨hr, hi, hf, ho, hc, hfin, hph⟩
  | fire =>
    have hinv : invokes [Ev.fire] = 0 := by decide
    rw [hinv]
    unfold step; split <;> exact ⟨hr, hi, hf, ho, hc, hfin, hph⟩
  | taskStart =>
    have hinv : invokes [Ev.taskStart] = 0 := by decide
    rw [hinv]
    rcases hph with ⟨h1, h2, h3⟩ | ⟨h1, h2, h3⟩
    · have hen : enabled w Ev.taskStart = true := by simp [enabled, h1]
      have hs : step w Ev.taskStart = taskStart w := by simp [step, hen, effect]
      have hfr := taskStart_frame w
      rw [hs]
      refine ⟨?_, by rw [hfr.1]; exact hi, by rw [hfr.1]; exact hf, by rw [hfr.1]; exact ho,
        by rw [hfr.1]; exact hc, by rw [hfr.2.2.2.2.2]; exact hfin,
        Or.inr ⟨by rw [hfr.2.2.2.1, h1], by rw [hfr.2.2.2.2.1, h2], ?_⟩⟩
      · unfold resetReturns at hr ⊢
        rw [hfr.1, hfr.2.2.1]; exact hr
      · rw [← ho]
        cases hl : w.d.opts.Leading
        · simp [calls, taskStart, hl] at h3 ⊢
          exact h3
        · simp [calls, taskStart, callF, hl, hf] at h3 ⊢
          exact h3
    · have hen : enabled w Ev.taskStart = false := by simp [enabled, h1]
      have hs : step w Ev.taskStart = w := by simp [step, hen]
      rw [hs]
      exact ⟨hr, hi, hf, ho, hc, hfin, Or.inr ⟨h1, h2, h3⟩⟩
  | cancel => cases he
  | taskTick => cases he
  | taskDone => cases he
  | taskExit => cases he

theorem invokes_cons (e : Ev) (es : List Ev) : invokes (e :: es) = invokes [e] + invokes es := by
  unfold invokes
  rw [show e :: es = [e] ++ es from rfl, List.count_append]

theorem burstInv_run (o : Options) (c : Nat) (es : List Ev) (k : Nat) (w : World)
    (h : BurstInv o c k w) (hes : ∀ e ∈ es, e.inBurst = true)
    (hk : k + invokes es < 2 ^ 63) :
    BurstInv o c (k + invokes es) (run w es) := by
  induction es generalizing k w with
  | nil => simpa [invokes, run] using h
  | cons e es ih =>
    rw [invokes_cons] at hk ⊢
    have h1 := burstInv_step o c k w e h (hes e (List.mem_cons_self e es)) (by omega)
    have h2 := ih (k + invokes [e]) (step w e) h1
      (fun x hx => hes x (List.mem_cons_of_mem e hx)) (by omega)
    rw [run_cons, ← Nat.add_assoc]
    exact h2

theorem noBurst_step (w : World) (e : Ev) (h : NoBurst w) (he : e.inBurst = true) :
    NoBurst (step w e) := by
  obtain ⟨hr, hs, hwt⟩ := h
  cases e with
  | invoke =>
    rcases step_invoke w with ⟨_, h1⟩ | ⟨hr1, _, _⟩ | ⟨hr1, _, _⟩
    · rw [h1]; exact ⟨hr, hs, hwt⟩
    · rw [hr] at hr1; cases hr1
    · rw [hr] at hr1; cases hr1
  | flush =>
    rcases step_flush w with ⟨_, _, h1⟩ | ⟨_, h1, _⟩ <;> (rw [h1]; exact ⟨hr, hs, hwt⟩)
  | sleep dt => exact ⟨hr, hs, hwt⟩
  | fire => unfold step; split <;> exact ⟨hr, hs, hwt⟩
  | taskStart =>
    have hen : enabled w Ev.taskStart = false := by simp [enabled, hs]
    have h1 : step w Ev.taskStart = w := by simp [step, hen]
    rw [h1]; exact ⟨hr, hs, hwt⟩
  | cancel => cases he
  | taskTick => cases he
  | taskDone => cases he
  | taskExit => cases he

theorem noBurst_run (es : List Ev) (w : World) (h : NoBurst w)
    (hes : ∀ e ∈ es, e.inBurst = true) : NoBurst (run w es) := by
  induction es generalizing w with
  | nil => exact h
  | cons e es ih =>
    exact ih (step w e) (noBurst_step w e h (hes e (List.mem_cons_self e es)))
      (fun x hx => hes x (List.mem_cons_of_mem e hx))

/-- C3: on a debouncer with `Leading` and `Trailing` set, not cancelled and with
no goroutine active, on any runtime, take a burst: a first `Invoke`, then any
schedule `es` of further calls of `Invoke`, calls of `Flush`, passing time, the
timer firing and the goroutine reaching its `select`, after which the
goroutine leaves through the ticker branch (the tick coming from the quiet
period or from `Flush`).  Before that last step the function has been executed
once more than before the burst (the leading execution); after it, once more
in total when the burst was the single `Invoke`, twice when it had further
calls of `Invoke`; the end of the goroutine adds nothing and leaves the guard
free.  The `int64` counter bounds the burst: fewer than `2 ^ 63` calls after
the first. -/
theorem lone_call_rule (w : World) (es : List Ev)
    (hi : w.d.i = 0) (hs : w.spawned = 0) (hwt : w.waiting = 0) (hfn : w.finishing = 0)
    (hf : w.d.f = Func.user)
    (hL : w.d.opts.Leading = true) (hT : w.d.opts.Trailing = true)
    (hes : ∀ e ∈ es, e.inBurst = true) (hn : invokes es < 2 ^ 63)
    (hres : enabled (run w (Ev.invoke :: es)) Ev.taskTick = true) :
    calls (run w (Ev.invoke :: es)) = calls w + 1 ∧
    calls (run w (Ev.invoke :: es ++ [Ev.taskTick])) =
      calls w + (if invokes es = 0 then 1 else 2) ∧
    calls (run w (Ev.invoke :: es ++ [Ev.taskTick, Ev.taskExit])) =
      calls w + (if invokes es = 0 then 1 else 2) ∧
    (run w (Ev.invoke :: es ++ [Ev.taskTick, Ev.taskExit])).d.i = 0 ∧
    (run w (Ev.invoke :: es ++ [Ev.taskTick, Ev.taskExit])).spawned = 0 ∧
    (run w (Ev.invoke :: es ++ [Ev.taskTick, Ev.taskExit])).waiting = 0 ∧
    (run w (Ev.invoke :: es ++ [Ev.taskTick, Ev.taskExit])).finishing = 0 := by
  have hrun : run w (Ev.invoke :: es) = run (step w Ev.invoke) es := rfl
  have hwpos : 0 < (run w (Ev.invoke :: es)).waiting := by
    have := hres; simp [enabled] at this; exact this.1
  -- the first `Invoke` returns and launches the goroutine
  have h0 : BurstInv w.d.opts (calls w) 0 (step w Ev.invoke) := by
    rcases step_invoke w with ⟨hr, h1⟩ | ⟨hr, _, h1⟩ | ⟨_, hne, _⟩
    · exfalso
      have hnb : NoBurst (step w Ev.invoke) := by rw [h1]; exact ⟨hr, hs, hwt⟩
      have := (noBurst_run es _ hnb hes).2.2
      rw [← hrun] at this
      omega
    · rw [h1]
      exact ⟨hr, rfl, hf, rfl, rfl, hfn, Or.inl ⟨by simp [hs], hwt, rfl⟩⟩
    · exact absurd hi hne
  have h1 := burstInv_run w.d.opts (calls w) es 0 (step w Ev.invoke) h0 hes (by omega)
  rw [← hrun, Nat.zero_add] at h1
  obtain ⟨_, hi1, hf1, ho1, hc1, hfin1, hph⟩ := h1
  have hph2 : (run w (Ev.invoke :: es)).spawned = 0 ∧ (run w (Ev.invoke :: es)).waiting = 1 ∧
      calls (run w (Ev.invoke :: es)) = calls w + 1 := by
    rcases hph with ⟨_, h2, _⟩ | ⟨h1, h2, h3⟩
    · omega
    · rw [hL] at h3; exact ⟨h1, h2, h3⟩
  have happ : ∀ fs : List Ev, run w (Ev.invoke :: es ++ fs) = run (run w (Ev.invoke :: es)) fs := by
    intro fs
    rw [show Ev.invoke :: es ++ fs = (Ev.invoke :: es) ++ fs from rfl, run_append]
  generalize run w (Ev.invoke :: es) = v at hres hwpos hi1 hf1 ho1 hc1 hfin1 hph2 happ
  have htick : step v Ev.taskTick = taskTick v := by simp [step, hres, effect]
  have hfr := taskTick_frame v
  have hL1 : v.d.opts.Leading = true := by rw [ho1]; exact hL
  have hT1 : v.d.opts.Trailing = true := by rw [ho1]; exact hT
  have hcalls : calls (taskTick v) = calls w + (if invokes es = 0 then 1 else 2) := by
    have hcv := hph2.2.2
    by_cases hz : invokes es = 0
    · have hc0 : ¬ v.d.intermediateCount > 0 := by
        rw [hc1, hz]; simp
      simp only [calls] at hcv ⊢
      simp [taskTick, hL1, hT1, hc0, hz, hcv]
    · have hc0 : v.d.intermediateCount > 0 := by
        rw [hc1]; exact_mod_cast Nat.pos_of_ne_zero hz
      simp only [calls] at hcv ⊢
      simp [taskTick, callF, hf1, hL1, hT1, hc0, hz, hcv]
  have hen2 : enabled (taskTick v) Ev.taskExit = true := by
    simp [enabled, hfr.2.2.2.2.2]
  have h2 : run v [Ev.taskTick, Ev.taskExit] = taskExit (taskTick v) := by
    show step (step v Ev.taskTick) Ev.taskExit = _
    rw [htick]
    simp [step, hen2, effect]
  have h1s : run v [Ev.taskTick] = taskTick v := htick
  refine ⟨hph2.2.2, ?_, ?_, ?_, ?_, ?_, ?_⟩
  · rw [happ, h1s]; exact hcalls
  · rw [happ, h2]; exact hcalls
  · rw [happ, h2]; rfl
  · rw [happ, h2]
    show (taskTick v).spawned = 0
    rw [hfr.2.2.2.1]; exact hph2.1
  · rw [happ, h2]
    show (taskTick v).waiting = 0
    rw [hfr.2.2.2.2.1, hph2.2.1]
  · rw [happ, h2]
    show (taskTick v).finishing - 1 = 0
    rw [hfr.2.2.2.2.2, hfin1]

/-- A lone `Invoke` resolved by the quiet period (one execution, the leading one),
and the calls of `TestMaxwaitWithTrailing`, resolved by `Flush` (two). -/
theorem lone_call_rule_witness :
    calls (run (fresh go123 1000 bothEdges none)
      (Ev.invoke :: [Ev.taskStart, Ev.sleep 1000, Ev.fire] ++ [Ev.taskTick])) =
        calls (fresh go123 1000 bothEdges none) +
          (if invokes [Ev.taskStart, Ev.sleep 1000, Ev.fire] = 0 then 1 else 2) ∧
    calls (run (fresh go117 1000000000 (bothMax 5000000) (some 5000000))
      (Ev.invoke :: [Ev.taskStart, Ev.invoke, Ev.sleep 2000000, Ev.invoke, Ev.invoke,
        Ev.sleep 2000000, Ev.invoke, Ev.invoke, Ev.flush, Ev.fire] ++ [Ev.taskTick])) =
        calls (fresh go117 1000000000 (bothMax 5000000) (some 5000000)) +
          (if invokes [Ev.taskStart, Ev.invoke, Ev.sleep 2000000, Ev.invoke, Ev.invoke,
            Ev.sleep 2000000, Ev.invoke, Ev.invoke, Ev.flush, Ev.fire] = 0 then 1 else 2) ∧
    invokes [Ev.taskStart, Ev.sleep 1000, Ev.fire] = 0 ∧
    invokes [Ev.taskStart, Ev.invoke, Ev.sleep 2000000, Ev.invoke, Ev.invoke,
      Ev.sleep 2000000, Ev.invoke, Ev.invoke, Ev.flush, Ev.fire] = 5 :=
  ⟨(lone_call_rule (fresh go123 1000 bothEdges none) [Ev.taskStart, Ev.sleep 1000, Ev.fire]
      rfl rfl rfl rfl rfl rfl rfl (by decide) (by decide) (by decide)).2.1,
    (lone_call_rule (fresh go117 1000000000 (bothMax 5000000) (some 5000000))
      [Ev.taskStart, Ev.invoke, Ev.sleep 2000000, Ev.invoke, Ev.invoke,
        Ev.sleep 2000000, Ev.invoke, Ev.invoke, Ev.flush, Ev.fire]
      rfl rfl rfl rfl rfl rfl rfl (by decide) (by decide) (by decide)).2.1,
    by decide, by decide⟩

/-! ## Coalescing and the ticks of an idle ticker (C2) -/

theorem step_taskStart_trailing (w : World) (hl : w.d.opts.Leading = false) :
    (step w Ev.taskStart).d = w.d ∧ (step w Ev.taskStart).log = w.log ∧
      (step w Ev.taskStart).now = w.now ∧ (step w Ev.taskStart).rt = w.rt ∧
      (step w Ev.taskStart).finishing = w.finishing := by
  unfold step
  split
  · show (taskStart w).d = w.d ∧ (taskStart w).log = w.log ∧ (taskStart w).now = w.now ∧
      (taskStart w).rt = w.rt ∧ (taskStart w).finishing = w.finishing
    rw [taskStart_of_not_leading w hl]
    exact ⟨rfl, rfl, rfl, rfl, rfl⟩
  · exact ⟨rfl, rfl, rfl, rfl, rfl⟩

theorem step_taskStart_waiting (w : World) (hl : w.d.opts.Leading = false)
    (h : w.spawned + w.waiting = 1) :
    (step w Ev.taskStart).waiting = 1 ∧ (step w Ev.taskStart).spawned = 0 := by
  unfold step
  split
  · rename_i hen
    have hpos : 0 < w.spawned := by simpa [enabled] using hen
    show (taskStart w).waiting = 1 ∧ (taskStart w).spawned = 0
    rw [taskStart_of_not_leading w hl]
    refine ⟨?_, ?_⟩
    · show w.waiting + 1 = 1; omega
    · show w.spawned - 1 = 0; omega
  · rename_i hen
    have hz : w.spawned = 0 := by simpa [enabled] using hen
    exact ⟨by omega, hz⟩

theorem callInv_step (w0 w : World) (e : Ev) (hL : w0.d.opts.Leading = false)
    (h : CallInv w0 w) (he : e.calling = true) : CallInv w0 (step w e) := by
  obtain ⟨h1, h2, h3, h4, h5, h6, h7, h8⟩ := h
  have h8' := singleFlight_step w e h8
  cases e with
  | invoke =>
    rcases step_invoke w with ⟨_, hs⟩ | ⟨_, _, hs⟩ | ⟨_, _, hs⟩ <;>
      (rw [hs] at h8' ⊢; exact ⟨h1, h2, h3, h4, h5, h6, h7, h8'⟩)
  | sleep dt => exact ⟨h1, h2, h3, h4, h5, h6, h7, h8'⟩
  | fire =>
    refine ⟨?_, ?_, ?_, ?_, ?_, ?_, ?_, h8'⟩ <;> (unfold step; split <;> assumption)
  | taskStart =>
    have hl : w.d.opts.Leading = false := by rw [h2]; exact hL
    have hst := step_taskStart_trailing w hl
    exact ⟨(congrArg debouncer.f hst.1).trans h1, (congrArg debouncer.opts hst.1).trans h2,
      (congrArg debouncer.wait hst.1).trans h3, (congrArg debouncer.ctx hst.1).trans h4,
      hst.2.2.2.1.trans h5, hst.2.1.trans h6, hst.2.2.2.2.trans h7, h8'⟩
  | flush => cases he
  | cancel => cases he
  | taskTick => cases he
  | taskDone => cases he
  | taskExit => cases he

theorem callInv_run (w0 : World) (hL : w0.d.opts.Leading = false) (es : List Ev) (w : World)
    (h : CallInv w0 w) (hes : ∀ e ∈ es, e.calling = true) : CallInv w0 (run w es) := by
  induction es generalizing w with
  | nil => exact h
  | cons e es ih =>
    exact ih (step w e) (callInv_step w0 w e hL h (hes e (List.mem_cons_self e es)))
      (fun x hx => hes x (List.mem_cons_of_mem e hx))

theorem quietInv_step (w0 : World) (t0 : Nat) (w : World) (e : Ev)
    (hL : w0.d.opts.Leading = false) (h : QuietInv w0 t0 w) (he : e.idle = true) :
    QuietInv w0 t0 (step w e) ∧ (step w e).now = w.now + slept [e] := by
  obtain ⟨hc, hi, ht⟩ := h
  cases e with
  | sleep dt =>
    have hcal : CallInv w0 (step w (Ev.sleep dt)) := callInv_step w0 w (Ev.sleep dt) hL hc rfl
    refine ⟨⟨hcal, hi, ?_⟩, ?_⟩
    · rcases ht with ⟨hb, hn⟩ | ⟨hb, hle⟩
      · exact Or.inl ⟨hb, hn⟩
      · exact Or.inr ⟨hb, Nat.le_trans hle (Nat.le_add_right _ _)⟩
    · show w.now + dt = w.now + slept [Ev.sleep dt]
      simp [slept]
  | fire =>
    have hcal : CallInv w0 (step w Ev.fire) := callInv_step w0 w Ev.fire hL hc rfl
    have hnow : (step w Ev.fire).now = w.now := by unfold step; split <;> rfl
    have hii : (step w Ev.fire).d.i = 1 := by unfold step; split <;> exact hi
    refine ⟨⟨hcal, hii, ?_⟩, by rw [hnow]; simp [slept]⟩
    rw [hnow]
    by_cases hen : enabled w Ev.fire = true
    · have hs : step w Ev.fire = fire w := by simp [step, hen, effect]
      have hdue : w.d.waitTicker.due w.now = true := hen
      have hb : (step w Ev.fire).d.waitTicker.buffered = true := by
        rw [hs]; exact fire_due _ _ hdue
      refine Or.inr ⟨hb, ?_⟩
      rcases ht with ⟨_, hn⟩ | ⟨_, hle⟩
      · unfold Ticker.due at hdue
        rw [hn] at hdue
        simpa using hdue
      · exact hle
    · have hs : step w Ev.fire = w := by simp [step, hen]
      rw [hs]; exact ht
  | taskStart =>
    have hcal : CallInv w0 (step w Ev.taskStart) := callInv_step w0 w Ev.taskStart hL hc rfl
    have hl : w.d.opts.Leading = false := by rw [hc.2.1]; exact hL
    have hst := step_taskStart_trailing w hl
    refine ⟨⟨hcal, ?_, ?_⟩, ?_⟩
    · rw [hst.1]; exact hi
    · rw [hst.1, hst.2.2.1]; exact ht
    · rw [hst.2.2.1]; simp [slept]
  | invoke => cases he
  | flush => cases he
  | cancel => cases he
  | taskTick => cases he
  | taskDone => cases he
  | taskExit => cases he

theorem slept_cons (e : Ev) (es : List Ev) : slept (e :: es) = slept [e] + slept es := by
  cases e <;> simp [slept]

theorem quietInv_run (w0 : World) (t0 : Nat) (hL : w0.d.opts.Leading = false)
    (es : List Ev) (w : World) (h : QuietInv w0 t0 w) (hes : ∀ e ∈ es, e.idle = true) :
    QuietInv w0 t0 (run w es) ∧ (run w es).now = w.now + slept es := by
  induction es generalizing w with
  | nil => exact ⟨h, rfl⟩
  | cons e es ih =>
    have h1 := quietInv_step w0 t0 w e hL h (hes e (List.mem_cons_self e es))
    have h2 := ih (step w e) h1.1 (fun x hx => hes x (List.mem_cons_of_mem e hx))
    rw [run_cons, slept_cons]
    exact ⟨h2.1, by rw [h2.2, h1.2]; omega⟩

theorem quiet_resolve (w0 w1 : World) (t0 : Nat) (h : QuietInv w0 t0 w1)
    (hf : w0.d.f = Func.user) (hL : w0.d.opts.Leading = false)
    (hT : w0.d.opts.Trailing = true)
    (hc : w0.d.ctx.cancelled = false) (hd : w0.d.ctx.deadline = none) :
    enabled w1 Ev.taskDone = false ∧
    (enabled w1 Ev.taskTick = true → t0 + w0.d.wait.toNat ≤ w1.now) ∧
    (t0 + w0.d.wait.toNat ≤ w1.now →
      (run w1 [Ev.fire, Ev.taskStart, Ev.taskTick]).log = w1.now :: w0.log ∧
        (run w1 [Ev.fire, Ev.taskStart, Ev.taskTick, Ev.taskExit]).log = w1.now :: w0.log ∧
        (run w1 [Ev.fire, Ev.taskStart, Ev.taskTick, Ev.taskExit]).d.i = 0 ∧
        (run w1 [Ev.fire, Ev.taskStart, Ev.taskTick, Ev.taskExit]).spawned +
          (run w1 [Ev.fire, Ev.taskStart, Ev.taskTick, Ev.taskExit]).waiting +
          (run w1 [Ev.fire, Ev.taskStart, Ev.taskTick, Ev.taskExit]).finishing = 0) := by
  have hctx1 : w1.d.ctx.done w1.now = false := by
    rw [h.1.2.2.2.1]
    simp [Context.done, hc, hd]
  refine ⟨by simp [enabled, hctx1], ?_, ?_⟩
  · intro hen
    have hb : w1.d.waitTicker.buffered = true := by
      have := hen; simp [enabled] at this; exact this.2
    rcases h.2.2 with ⟨hb0, _⟩ | ⟨_, hle⟩
    · rw [hb0] at hb; cases hb
    · exact hle
  · intro hle
    -- the timer fires (or has fired), the goroutine reaches its `select`
    have hq2 := (quietInv_run w0 t0 hL [Ev.fire, Ev.taskStart] w1 h
      (by intro e he; simp at he; rcases he with rfl | rfl <;> rfl))
    have e1 : run w1 [Ev.fire, Ev.taskStart, Ev.taskTick] =
        run (run w1 [Ev.fire, Ev.taskStart]) [Ev.taskTick] := rfl
    have e2 : run w1 [Ev.fire, Ev.taskStart, Ev.taskTick, Ev.taskExit] =
        run (run w1 [Ev.fire, Ev.taskStart]) [Ev.taskTick, Ev.taskExit] := rfl
    rw [e1, e2]
    have hnow2 : (run w1 [Ev.fire, Ev.taskStart]).now = w1.now := by
      rw [hq2.2]; simp [slept]
    have hb2 : (run w1 [Ev.fire, Ev.taskStart]).d.waitTicker.buffered = true := by
      -- after `fire` a tick is waiting, and `taskStart` keeps it
      have h1 := (quietInv_step w0 t0 w1 Ev.fire hL h rfl)
      have hbf : (step w1 Ev.fire).d.waitTicker.buffered = true := by
        by_cases hen : enabled w1 Ev.fire = true
        · have hs : step w1 Ev.fire = fire w1 := by simp [step, hen, effect]
          rw [hs]; exact fire_due _ _ hen
        · rcases h.2.2 with ⟨_, hn⟩ | ⟨hb1, _⟩
          · exfalso
            apply hen
            show w1.d.waitTicker.due w1.now = true
            unfold Ticker.due
            rw [hn]
            simpa using hle
          · have hs : step w1 Ev.fire = w1 := by simp [step, hen]
            rw [hs]; exact hb1
      have hl1 : (step w1 Ev.fire).d.opts.Leading = false := by
        rw [h1.1.1.2.1]; exact hL
      show (step (step w1 Ev.fire) Ev.taskStart).d.waitTicker.buffered = true
      rw [(step_taskStart_trailing _ hl1).1]; exact hbf
    have hw2 : (run w1 [Ev.fire, Ev.taskStart]).waiting = 1 ∧
        (run w1 [Ev.fire, Ev.taskStart]).spawned = 0 := by
      have h1 := (quietInv_step w0 t0 w1 Ev.fire hL h rfl).1
      have hl1 : (step w1 Ev.fire).d.opts.Leading = false := by
        rw [h1.1.2.1]; exact hL
      have hsum := h1.1.2.2.2.2.2.2.2.2
      rw [h1.2.1, h1.1.2.2.2.2.2.2.1] at hsum
      exact step_taskStart_waiting _ hl1 (by omega)
    obtain ⟨⟨hc2, hi2, _⟩, _⟩ := hq2
    generalize run w1 [Ev.fire, Ev.taskStart] = w2 at hc2 hi2 hnow2 hb2 hw2 ⊢
    have hen2 : enabled w2 Ev.taskTick = true := by
      simp [enabled, hw2.1, hb2]
    have htk : run w2 [Ev.taskTick] = taskTick w2 := by
      show step w2 Ev.taskTick = _
      simp [step, hen2, effect]
    have hfr := taskTick_frame w2
    have hf2 : w2.d.f = Func.user := by rw [hc2.1]; exact hf
    have hL2 : w2.d.opts.Leading = false := by rw [hc2.2.1]; exact hL
    have hT2 : w2.d.opts.Trailing = true := by rw [hc2.2.1]; exact hT
    have hlog : (taskTick w2).log = w1.now :: w0.log := by
      rw [← hnow2, ← hc2.2.2.2.2.2.1]
      simp [taskTick, callF, hf2, hL2, hT2]
    have hen3 : enabled (taskTick w2) Ev.taskExit = true := by
      simp [enabled, hfr.2.2.2.2.2]
    have hex : run w2 [Ev.taskTick, Ev.taskExit] = taskExit (taskTick w2) := by
      show step (step w2 Ev.taskTick) Ev.taskExit = _
      rw [show step w2 Ev.taskTick = taskTick w2 from htk]
      simp [step, hen3, effect]
    rw [htk, hex]
    refine ⟨hlog, hlog, rfl, ?_⟩
    show (taskTick w2).spawned + (taskTick w2).waiting + ((taskTick w2).finishing - 1) = 0
    rw [hfr.2.2.2.1, hfr.2.2.2.2.1, hfr.2.2.2.2.2, hw2.1, hw2.2, hc2.2.2.2.2.2.2.1]

/-- Coalescing when no tick is waiting: a trailing debouncer without leading edge
and without `MaxWait`, not cancelled, no goroutine active, on any runtime.  A
burst (any schedule `pre` of calls of `Invoke`, passing time, the timer firing
and goroutine start, then the last `Invoke`) after which no tick is waiting in
the channel, followed by silence `tail` (passing time, the timer firing,
goroutine start).  Nothing is executed during the burst and the silence; the
ticker branch cannot be taken before the quiet period has passed since the
last `Invoke`; once it has passed, the timer fires, the goroutine takes the
ticker branch and the function has been executed exactly once. -/
theorem coalescing (w : World) (pre tail : List Ev)
    (hi : w.d.i = 0) (hs : w.spawned = 0) (hwt : w.waiting = 0) (hfn : w.finishing = 0)
    (hf : w.d.f = Func.user)
    (hL : w.d.opts.Leading = false) (hT : w.d.opts.Trailing = true) (hW : 0 < w.d.wait)
    (hc : w.d.ctx.cancelled = false) (hd : w.d.ctx.deadline = none)
    (hpre : ∀ e ∈ pre, e.calling = true) (htail : ∀ e ∈ tail, e.idle = true)
    (hclean : (run w (pre ++ [Ev.invoke])).d.waitTicker.buffered = false) :
    (run w (pre ++ [Ev.invoke] ++ tail)).log = w.log ∧
    (run w (pre ++ [Ev.invoke] ++ tail)).now = (run w (pre ++ [Ev.invoke])).now + slept tail ∧
    enabled (run w (pre ++ [Ev.invoke] ++ tail)) Ev.taskDone = false ∧
    (enabled (run w (pre ++ [Ev.invoke] ++ tail)) Ev.taskTick = true →
      w.d.wait.toNat ≤ slept tail) ∧
    (w.d.wait.toNat ≤ slept tail →
      (run w (pre ++ [Ev.invoke] ++ tail ++ [Ev.fire, Ev.taskStart, Ev.taskTick])).log =
          (run w (pre ++ [Ev.invoke] ++ tail)).now :: w.log ∧
        calls (run w (pre ++ [Ev.invoke] ++ tail ++
          [Ev.fire, Ev.taskStart, Ev.taskTick, Ev.taskExit])) = calls w + 1 ∧
        (run w (pre ++ [Ev.invoke] ++ tail ++
          [Ev.fire, Ev.taskStart, Ev.taskTick, Ev.taskExit])).d.i = 0 ∧
        (run w (pre ++ [Ev.invoke] ++ tail ++
            [Ev.fire, Ev.taskStart, Ev.taskTick, Ev.taskExit])).spawned +
          (run w (pre ++ [Ev.invoke] ++ tail ++
            [Ev.fire, Ev.taskStart, Ev.taskTick, Ev.taskExit])).waiting +
          (run w (pre ++ [Ev.invoke] ++ tail ++
            [Ev.fire, Ev.taskStart, Ev.taskTick, Ev.taskExit])).finishing = 0) := by
  -- the burst up to its last call
  have hsf : SingleFlight w := ⟨by omega, by omega⟩
  have hcp : CallInv w (run w pre) :=
    callInv_run w hL pre w ⟨rfl, rfl, rfl, rfl, rfl, rfl, hfn, hsf⟩ hpre
  have hm : run w (pre ++ [Ev.invoke]) = step (run w pre) Ev.invoke := by
    rw [run_append]; rfl
  have hcm : CallInv w (run w (pre ++ [Ev.invoke])) := by
    rw [hm]
    exact callInv_step w (run w pre) Ev.invoke hL hcp rfl
  have hwp : (run w pre).d.wait = w.d.wait := hcp.2.2.1
  have hret : resetReturns (run w pre) = true :=
    (resetReturns_true _).2 (fun h => by rw [hwp] at h; omega)
  have hmid : (run w (pre ++ [Ev.invoke])).d.i = 1 ∧
      (run w (pre ++ [Ev.invoke])).d.waitTicker.next =
        some ((run w pre).now + w.d.wait.toNat) ∧
      (run w (pre ++ [Ev.invoke])).now = (run w pre).now := by
    rw [hm]
    rcases step_invoke (run w pre) with ⟨hr, _⟩ | ⟨_, _, h1⟩ | ⟨_, hne, h1⟩
    · rw [hret] at hr; cases hr
    · rw [h1, ← hwp]; exact ⟨rfl, rfl, rfl⟩
    · rw [h1, ← hwp]
      refine ⟨?_, rfl, rfl⟩
      have := hcp.2.2.2.2.2.2.2.1
      show (run w pre).d.i = 1
      omega
  have hq : QuietInv w (run w (pre ++ [Ev.invoke])).now (run w (pre ++ [Ev.invoke])) :=
    ⟨hcm, hmid.1, Or.inl ⟨hclean, by rw [hmid.2.1, hmid.2.2]⟩⟩
  -- the silence, and the resolution
  have hr := quietInv_run w _ hL tail _ hq htail
  rw [← run_append] at hr
  obtain ⟨hq1, hnow1⟩ := hr
  have hres := quiet_resolve w _ _ hq1 hf hL hT hc hd
  rw [← run_append, ← run_append] at hres
  refine ⟨hq1.1.2.2.2.2.2.1, hnow1, hres.1, ?_, ?_⟩
  · intro hen
    have := hres.2.1 hen
    omega
  · intro hle
    have h5 := hres.2.2 (by omega)
    refine ⟨h5.1, ?_, h5.2.2.1, h5.2.2.2⟩
    unfold calls
    rw [h5.2.1]
    rfl

/-- On a runtime whose `Reset` discards a waiting tick (Go 1.23 and later) no
tick is waiting after an `Invoke`, so coalescing holds from every idle state:
the ticker branch cannot be taken before the quiet period has passed since the
last `Invoke`, and once it has passed the function is executed exactly once. -/
theorem coalescing_when_drained (w : World) (pre tail : List Ev)
    (hrt : w.rt.resetDrains = true)
    (hi : w.d.i = 0) (hs : w.spawned = 0) (hwt : w.waiting = 0) (hfn : w.finishing = 0)
    (hf : w.d.f = Func.user)
    (hL : w.d.opts.Leading = false) (hT : w.d.opts.Trailing = true) (hW : 0 < w.d.wait)
    (hc : w.d.ctx.cancelled = false) (hd : w.d.ctx.deadline = none)
    (hpre : ∀ e ∈ pre, e.calling = true) (htail : ∀ e ∈ tail, e.idle = true) :
    (run w (pre ++ [Ev.invoke] ++ tail)).log = w.log ∧
    (enabled (run w (pre ++ [Ev.invoke] ++ tail)) Ev.taskTick = true →
      w.d.wait.toNat ≤ slept tail) ∧
    (w.d.wait.toNat ≤ slept tail →
      calls (run w (pre ++ [Ev.invoke] ++ tail ++
        [Ev.fire, Ev.taskStart, Ev.taskTick, Ev.taskExit])) = calls w + 1) := by
  have hclean : (run w (pre ++ [Ev.invoke])).d.waitTicker.buffered = false := by
    have hm : run w (pre ++ [Ev.invoke]) = step (run w pre) Ev.invoke := by
      rw [run_append]; rfl
    have hc1 := run_const pre w
    have hret : resetReturns (run w pre) = true :=
      (resetReturns_true _).2 (fun h => by rw [hc1.2.1] at h; omega)
    have hdr : (run w pre).rt.resetDrains = true := by rw [hc1.1]; exact hrt
    rw [hm]
    rcases step_invoke (run w pre) with ⟨hr, _⟩ | ⟨_, _, h1⟩ | ⟨_, _, h1⟩
    · rw [hret] at hr; cases hr
    · rw [h1]; simp [hdr]
    · rw [h1]; simp [hdr]
  have h := coalescing w pre tail hi hs hwt hfn hf hL hT hW hc hd hpre htail hclean
  exact ⟨h.1, h.2.2.2.1, fun hle => (h.2.2.2.2 hle).2.1⟩

/-- Three calls of `Invoke` half a millisecond apart on a debouncer with a quiet
period of two milliseconds, then two milliseconds of silence: one execution,
two milliseconds after the last call. -/
theorem coalescing_witness :
    (run (fresh go117 2000000 trailingOnly none)
      ([Ev.invoke, Ev.taskStart, Ev.sleep 500000, Ev.invoke, Ev.sleep 500000] ++ [Ev.invoke]
        ++ [Ev.sleep 2000000] ++ [Ev.fire, Ev.taskStart, Ev.taskTick])).log = [3000000] ∧
    (enabled (run (fresh go117 2000000 trailingOnly none)
      ([Ev.invoke, Ev.taskStart, Ev.sleep 500000, Ev.invoke, Ev.sleep 500000] ++ [Ev.invoke]
        ++ [Ev.sleep 1999999, Ev.fire])) Ev.taskTick = true → (2000000 : Int).toNat ≤ 1999999) :=
  ⟨((coalescing (fresh go117 2000000 trailingOnly none)
      [Ev.invoke, Ev.taskStart, Ev.sleep 500000, Ev.invoke, Ev.sleep 500000] [Ev.sleep 2000000]
      rfl rfl rfl rfl rfl rfl rfl (by decide) rfl rfl (by decide) (by decide)
      (by decide)).2.2.2.2 (by decide)).1,
    (coalescing (fresh go117 2000000 trailingOnly none)
      [Ev.invoke, Ev.taskStart, Ev.sleep 500000, Ev.invoke, Ev.sleep 500000]
      [Ev.sleep 1999999, Ev.fire]
      rfl rfl rfl rfl rfl rfl rfl (by decide) rfl rfl (by decide) (by decide)
      (by decide)).2.2.2.1⟩

/-- The burst that starts with a stale tick on Go 1.22 and before, on Go 1.23:
one execution, a quiet period after the last call. -/
theorem coalescing_when_drained_witness :
    calls (run (run (fresh go123 2000000 trailingOnly none) [Ev.sleep 5000000, Ev.fire])
      ([Ev.invoke, Ev.taskStart, Ev.sleep 1000] ++ [Ev.invoke] ++ [Ev.sleep 2000000] ++
        [Ev.fire, Ev.taskStart, Ev.taskTick, Ev.taskExit])) =
      calls (run (fresh go123 2000000 trailingOnly none) [Ev.sleep 5000000, Ev.fire]) + 1 :=
  (coalescing_when_drained
    (run (fresh go123 2000000 trailingOnly none) [Ev.sleep 5000000, Ev.fire])
    [Ev.invoke, Ev.taskStart, Ev.sleep 1000] [Ev.sleep 2000000]
    rfl rfl rfl rfl rfl rfl rfl rfl (by decide) rfl rfl (by decide) (by decide)).2.2 (by decide)

/-- C2 fails on the code built with Go 1.22 or earlier. The ticker is started in
`New` and goes on ticking; a tick nobody receives stays in its channel, and on
those runtimes `Reset` does not remove it.  A trailing debouncer with a quiet
period of `2ms` is first invoked `5ms` after `New`: its goroutine can take the
ticker branch at once, and the function is executed at `5ms`, the very instant
of the `Invoke`.  A second `Invoke` one microsecond later starts a second
goroutine, which executes the function again once the quiet period has passed:
two calls less than a quiet period apart, two executions.  On Go 1.23 and
later `Reset` discards the tick: the same calls give one execution, a quiet
period after the last call. -/
theorem stale_tick_fires_at_once :
    (∀ rt ∈ [go117, go118],
      New rt 0 2000000 trailingOnly = some (fresh rt 2000000 trailingOnly none) ∧
      (run (fresh rt 2000000 trailingOnly none)
        [Ev.sleep 5000000, Ev.fire]).d.waitTicker.buffered = true ∧
      (run (fresh rt 2000000 trailingOnly none) [Ev.sleep 5000000, Ev.fire]).spawned +
        (run (fresh rt 2000000 trailingOnly none) [Ev.sleep 5000000, Ev.fire]).waiting +
        (run (fresh rt 2000000 trailingOnly none) [Ev.sleep 5000000, Ev.fire]).finishing = 0 ∧
      enabled (run (fresh rt 2000000 trailingOnly none)
        [Ev.sleep 5000000, Ev.fire, Ev.invoke, Ev.taskStart]) Ev.taskTick = true ∧
      (run (fresh rt 2000000 trailingOnly none)
        [Ev.sleep 5000000, Ev.fire, Ev.invoke, Ev.taskStart, Ev.taskTick]).log = [5000000] ∧
      (run (fresh rt 2000000 trailingOnly none)
        [Ev.sleep 5000000, Ev.fire, Ev.invoke, Ev.taskStart, Ev.taskTick, Ev.taskExit,
          Ev.sleep 1000, Ev.invoke, Ev.taskStart, Ev.sleep 2000000, Ev.fire,
          Ev.taskTick]).log = [7001000, 5000000]) ∧
    enabled (run (fresh go123 2000000 trailingOnly none)
      [Ev.sleep 5000000, Ev.fire, Ev.invoke, Ev.taskStart]) Ev.taskTick = false ∧
    (run (fresh go123 2000000 trailingOnly none)
      [Ev.sleep 5000000, Ev.fire, Ev.invoke, Ev.taskStart, Ev.taskTick, Ev.taskExit,
        Ev.sleep 1000, Ev.invoke, Ev.taskStart, Ev.sleep 2000000, Ev.fire,
        Ev.taskTick]).log = [7001000] := by
  decide

/-! ## `Flush` (C6, C7) -/

/-- C6 fails on the code.
On Go 1.18 and later `Flush` panics in `Ticker.Reset(0)`, whatever the
configuration: after `Invoke` and `Flush` on a trailing debouncer with a quiet
period of one second nothing is pending, nothing is executed, and the
execution comes only after the quiet period.
On Go 1.17 and before `Flush` returns and the timer fires at once, but with a
`MaxWait` of `1ms` and the calls made `3ms` after `New` the deadline of `New` has
passed (the defect of C10): both channels of the `select` are ready and the
goroutine can leave through `ctx.Done()`, executing nothing.
And on Go 1.17 and before, when the goroutine of the burst is past its `select`
(`f` is running, the guard is held), `Invoke` launches nothing and the tick of
`Flush` finds no receiver: the two calls execute nothing. -/
theorem Flush_may_execute_nothing :
    (∀ rt ∈ [go118, go123],
      Flush (run (fresh rt 1000000000 trailingOnly none) [Ev.invoke, Ev.taskStart]) = none ∧
      (run (fresh rt 1000000000 trailingOnly none)
        [Ev.invoke, Ev.taskStart, Ev.flush]).crashed = true ∧
      enabled (run (fresh rt 1000000000 trailingOnly none)
        [Ev.invoke, Ev.taskStart, Ev.flush]) Ev.fire = false ∧
      enabled (run (fresh rt 1000000000 trailingOnly none)
        [Ev.invoke, Ev.taskStart, Ev.flush]) Ev.taskTick = false ∧
      (run (fresh rt 1000000000 trailingOnly none)
        [Ev.invoke, Ev.taskStart, Ev.flush, Ev.fire, Ev.taskTick, Ev.taskExit]).log = [] ∧
      (run (fresh rt 1000000000 trailingOnly none)
        [Ev.invoke, Ev.taskStart, Ev.flush, Ev.sleep 1000000000, Ev.fire, Ev.taskTick,
          Ev.taskExit]).log = [1000000000]) ∧
    New go117 0 1000000000 (trailingMax 1000000) =
      some (fresh go117 1000000000 (trailingMax 1000000) (some 1000000)) ∧
    (run (fresh go117 1000000000 (trailingMax 1000000) (some 1000000))
      [Ev.sleep 3000000, Ev.invoke, Ev.flush]).crashed = false ∧
    enabled (run (fresh go117 1000000000 (trailingMax 1000000) (some 1000000))
      [Ev.sleep 3000000, Ev.invoke, Ev.flush, Ev.fire, Ev.taskStart]) Ev.taskTick = true ∧
    enabled (run (fresh go117 1000000000 (trailingMax 1000000) (some 1000000))
      [Ev.sleep 3000000, Ev.invoke, Ev.flush, Ev.fire, Ev.taskStart]) Ev.taskDone = true ∧
    (run (fresh go117 1000000000 (trailingMax 1000000) (some 1000000))
      [Ev.sleep 3000000, Ev.invoke, Ev.flush, Ev.fire, Ev.taskStart, Ev.taskDone]).d.i = 0 ∧
    (run (fresh go117 1000000000 (trailingMax 1000000) (some 1000000))
      [Ev.sleep 3000000, Ev.invoke, Ev.flush, Ev.fire, Ev.taskStart, Ev.taskDone,
        Ev.taskTick, Ev.sleep 1000000000, Ev.fire, Ev.taskTick]).log = [] ∧
    (run (fresh go117 1000000000 trailingOnly none)
      [Ev.invoke, Ev.taskStart, Ev.sleep 1000000000, Ev.fire, Ev.taskTick]).finishing = 1 ∧
    (run (fresh go117 1000000000 trailingOnly none)
      [Ev.invoke, Ev.taskStart, Ev.sleep 1000000000, Ev.fire, Ev.taskTick,
        Ev.invoke, Ev.flush, Ev.fire, Ev.taskStart, Ev.taskTick, Ev.taskExit,
        Ev.taskStart, Ev.taskTick, Ev.sleep 1000000000, Ev.fire, Ev.taskTick]).log
      = [1000000000] := by
  decide

/-- C7 fails on the code.
On Go 1.18 and later `Flush` panics in `Ticker.Reset(0)`: the calls of
`TestNotInkvokedDoesNothingEvenWithFlush` (quiet period `1ms`, `5ms` of sleep,
`Flush`) end in a panic where the test expects `Flush` to return.
On Go 1.17 and before `Flush` returns and executes nothing, but it re-arms the
timer of the idle debouncer to fire at once.  When the next `Invoke` comes
before the timer has fired, its `Reset` re-arms the timer again and nothing is
left of the `Flush`.  When the timer fires first, the tick waits in the channel
and the goroutine of the next `Invoke`, here one millisecond later, executes the
function at once instead of a quiet period (one second) later, as it does
without the `Flush`. -/
theorem Flush_idle_is_not_a_noop :
    (∀ rt ∈ [go118, go123],
      New rt 0 1000000 bothEdges = some (fresh rt 1000000 bothEdges none) ∧
      Flush (run (fresh rt 1000000 bothEdges none) [Ev.sleep 5000000]) = none ∧
      (run (fresh rt 1000000 bothEdges none) [Ev.sleep 5000000, Ev.flush]).crashed = true ∧
      (run (fresh rt 1000000 bothEdges none) [Ev.sleep 5000000, Ev.flush]).log = []) ∧
    (fresh go117 1000000000 trailingOnly none).spawned +
      (fresh go117 1000000000 trailingOnly none).waiting +
      (fresh go117 1000000000 trailingOnly none).finishing = 0 ∧
    (run (fresh go117 1000000000 trailingOnly none) [Ev.flush]).crashed = false ∧
    (run (fresh go117 1000000000 trailingOnly none) [Ev.flush]).log = [] ∧
    (run (fresh go117 1000000000 trailingOnly none) [Ev.flush]).d.waitTicker =
      { period := 0, next := some 0, buffered := false } ∧
    (fresh go117 1000000000 trailingOnly none).d.waitTicker =
      { period := 1000000000, next := some 1000000000, buffered := false } ∧
    enabled (run (fresh go117 1000000000 trailingOnly none)
      [Ev.flush, Ev.invoke, Ev.taskStart]) Ev.fire = false ∧
    enabled (run (fresh go117 1000000000 trailingOnly none)
      [Ev.flush, Ev.invoke, Ev.taskStart]) Ev.taskTick = false ∧
    enabled (run (fresh go117 1000000000 trailingOnly none)
      [Ev.flush, Ev.fire, Ev.sleep 1000000, Ev.invoke, Ev.taskStart]) Ev.taskTick = true ∧
    (run (fresh go117 1000000000 trailingOnly none)
      [Ev.flush, Ev.fire, Ev.sleep 1000000, Ev.invoke, Ev.taskStart, Ev.taskTick]).log
      = [1000000] ∧
    enabled (run (fresh go117 1000000000 trailingOnly none)
      [Ev.sleep 1000000, Ev.invoke, Ev.taskStart]) Ev.taskTick = false ∧
    (run (fresh go117 1000000000 trailingOnly none)
      [Ev.fire, Ev.sleep 1000000, Ev.invoke, Ev.taskStart, Ev.fire, Ev.taskTick]).log = [] := by
  decide

end Debounce
